import Mathlib

set_option maxRecDepth 8000

/-!
Formal model of the LXMLFormatter core (streaming XML tokenizer).

The development shallowly embeds, from the C++ sources:
  - `UTF8Handler` (src/src/UTF8Handler.h): the table-driven UTF-8 decoder and
    the encoder, on `Nat` byte values;
  - `BufferedInputStream` (src/src/BufferedInputStream.cpp, the variant whose
    out-of-line definitions live in that file: constructor + `fillBuffer` +
    `detectEncoding` + `ensureData` + `advance` + `getChar` + `peekChar`);
  - the `XMLTokenizer` helpers of src/src/XMLTokenizer.cpp (`internError`,
    `emitError`, `scanText`, `ensureCurrentTagCapacity`,
    `appendToCurrentTagBuf`, `ensureCurrentTagBuffer`, `pushTagFrame`,
    `makeTextToken`, `makeTagToken`) over an explicit tokenizer state.

Machine integers are modelled as `Nat` (with `% 256` where the source
truncates to `uint8_t`); `int32_t` results that can be negative are `Int`.
Heap blocks (tag buffers, the error arena) carry an explicit allocation
identifier so that pointer stability can be stated: a reallocation produces
a fresh identifier, and a pointer is a pair (allocation id, offset).

Byte buffers are `List Nat`; the C `memmove`/`read` writes are modelled by
`writeAt`, which overwrites a slice and keeps the list length.
-/

namespace LXML

/-! ## UTF-8 codec (src/src/UTF8Handler.h) -/

/-- First-byte dispatch entry (struct `ShUTF8Detail::Utf8Info`; the unused
`pad` field is dropped). -/
structure Utf8Info where
  bytes : Nat
  mask : Nat
  shift : Nat
  minCp : Nat
deriving Repr, DecidableEq

/-- `ShUTF8Detail::make_utf8_info`: classification of a first byte. The
256-entry table `utf8_table` is this function on byte values. -/
def make_utf8_info (byte : Nat) : Utf8Info :=
  if byte ≤ 0x7F then ⟨1, 0x7F, 0, 0x00⟩
  else if 0x80 ≤ byte ∧ byte ≤ 0xBF then ⟨0, 0, 0, 0⟩
  else if 0xC0 ≤ byte ∧ byte ≤ 0xC1 then ⟨0, 0, 0, 0⟩
  else if 0xC2 ≤ byte ∧ byte ≤ 0xDF then ⟨2, 0x1F, 6, 0x80⟩
  else if 0xE0 ≤ byte ∧ byte ≤ 0xEF then ⟨3, 0x0F, 12, 0x800⟩
  else if 0xF0 ≤ byte ∧ byte ≤ 0xF4 then ⟨4, 0x07, 18, 0x10000⟩
  else ⟨0, 0, 0, 0⟩

inductive DecodeStatus where
  | Ok
  | NeedMore
  | Invalid
deriving Repr, DecidableEq

structure DecodeResult where
  cp : Nat
  width : Nat
  status : DecodeStatus
deriving Repr, DecidableEq

inductive EncodeStatus where
  | Ok
  | NeedMore
  | Invalid
deriving Repr, DecidableEq

structure EncodeResult where
  width : Nat
  status : EncodeStatus
deriving Repr, DecidableEq

/-- `UTF8Handler::check_surrogates`: true iff `cp` is NOT a surrogate. -/
def check_surrogates (cp : Nat) : Bool := (cp &&& 0xFFFFF800) ≠ 0xD800

/-- `UTF8Handler::decode(p, avail)`. The available bytes are the list `p`
(`avail = p.length`); out-of-range reads never happen on the paths the
source takes. -/
def utf8decode (p : List Nat) : DecodeResult :=
  let avail := p.length
  if avail = 0 then ⟨0, 1, .NeedMore⟩
  else
    let first := p.getD 0 0
    let info := make_utf8_info first
    if info.bytes = 1 then ⟨first, 1, .Ok⟩
    else if info.bytes = 0 then ⟨0, 1, .Invalid⟩
    else if avail < info.bytes then ⟨0, info.bytes, .NeedMore⟩
    else
      match info.bytes with
      | 2 =>
        let b1 := p.getD 1 0
        if ¬(b1 &&& 0xC0 = 0x80) then ⟨0, 1, .Invalid⟩
        else
          let cp := ((first &&& info.mask) <<< info.shift) ||| (b1 &&& 0x3F)
          if cp < info.minCp then ⟨0, 1, .Invalid⟩
          else ⟨cp, 2, .Ok⟩
      | 3 =>
        let b1 := p.getD 1 0
        let b2 := p.getD 2 0
        if ¬(b1 &&& 0xC0 = 0x80) ∨ ¬(b2 &&& 0xC0 = 0x80) then ⟨0, 1, .Invalid⟩
        else
          let cp := ((first &&& info.mask) <<< info.shift) |||
                    ((b1 &&& 0x3F) <<< 6) ||| (b2 &&& 0x3F)
          if cp < info.minCp then ⟨0, 1, .Invalid⟩
          else if ¬check_surrogates cp then ⟨0, 1, .Invalid⟩
          else ⟨cp, 3, .Ok⟩
      | 4 =>
        let b1 := p.getD 1 0
        let b2 := p.getD 2 0
        let b3 := p.getD 3 0
        if ¬(b1 &&& 0xC0 = 0x80) ∨ ¬(b2 &&& 0xC0 = 0x80) ∨ ¬(b3 &&& 0xC0 = 0x80) then
          ⟨0, 1, .Invalid⟩
        else
          let cp := ((first &&& info.mask) <<< info.shift) |||
                    ((b1 &&& 0x3F) <<< 12) ||| ((b2 &&& 0x3F) <<< 6) ||| (b3 &&& 0x3F)
          if cp < info.minCp ∨ cp > 0x10FFFF then ⟨0, 1, .Invalid⟩
          else ⟨cp, 4, .Ok⟩
      | _ => ⟨0, 1, .Invalid⟩ -- unreachable: the table only yields 0/1/2/3/4

/-- `UTF8Handler::encode(cp, out, avail)`; returns the result record and the
bytes actually written (`% 256` models the `uint8_t` stores). -/
def utf8encode (cp : Nat) (avail : Nat) : EncodeResult × List Nat :=
  if ¬check_surrogates cp ∨ cp > 0x10FFFF then (⟨1, .Invalid⟩, [])
  else
    let need : Nat :=
      if cp ≤ 0x7F then 1
      else if cp ≤ 0x7FF then 2
      else if cp ≤ 0xFFFF then 3
      else 4
    if avail < need then (⟨need, .NeedMore⟩, [])
    else
      match need with
      | 1 => (⟨1, .Ok⟩, [cp % 256])
      | 2 => (⟨2, .Ok⟩,
          [(0xC0 ||| (cp >>> 6)) % 256,
           (0x80 ||| (cp &&& 0x3F)) % 256])
      | 3 => (⟨3, .Ok⟩,
          [(0xE0 ||| (cp >>> 12)) % 256,
           (0x80 ||| ((cp >>> 6) &&& 0x3F)) % 256,
           (0x80 ||| (cp &&& 0x3F)) % 256])
      | _ => (⟨4, .Ok⟩,
          [(0xF0 ||| (cp >>> 18)) % 256,
           (0x80 ||| ((cp >>> 12) &&& 0x3F)) % 256,
           (0x80 ||| ((cp >>> 6) &&& 0x3F)) % 256,
           (0x80 ||| (cp &&& 0x3F)) % 256])

/-! ## Buffered input stream (src/src/BufferedInputStream.cpp) -/

inductive Encoding where
  | UTF8
  | UTF8_NO_BOM
  | UTF16_LE
  | UTF16_BE
  | UTF32_LE
  | UTF32_BE
deriving Repr, DecidableEq

/-- Overwrite `buf[start .. start+bytes.length)` with `bytes` (semantics of
`memmove`/`istream::read` into a region of the fixed-size buffer). -/
def writeAt (buf : List Nat) (start : Nat) (bytes : List Nat) : List Nat :=
  buf.take start ++ bytes ++ buf.drop (start + bytes.length)

/-- State of a `BufferedInputStream`.  `input` is the byte sequence the
underlying `istream` has not yet delivered; `buffer` always has length
`bufferSize` (the backing array is zero-initialised by `make_unique`). -/
structure BISState where
  input : List Nat
  bufferSize : Nat
  buffer : List Nat
  bufferPos : Nat
  bufferEnd : Nat
  currentLine : Nat
  currentColumn : Nat
  totalBytesRead : Nat
  encoding : Encoding
  bomSize : Nat
  hasPendingCR : Bool
deriving Repr, DecidableEq

def LFb : Nat := 0x0A
def CRb : Nat := 0x0D

/-- `BufferedInputStream::ensureData(bytes)`.  The returned boolean is the
final `bufferPos_ + bytes <= bufferEnd_` test.  (For well-formed states
`bufferPos ≤ bufferEnd`, so the `size_t` subtraction in the compaction
condition never wraps.) -/
def ensureData (s : BISState) (bytes : Nat) : Bool × BISState :=
  if bytes > s.bufferSize then (false, s)
  else if s.bufferPos + bytes ≤ s.bufferEnd then (true, s)
  else
    let s1 :=
      if s.bufferPos > s.bufferSize / 4 ∧ s.bufferEnd - s.bufferPos > 0 then
        let remaining := s.bufferEnd - s.bufferPos
        { s with buffer := writeAt s.buffer 0 ((s.buffer.drop s.bufferPos).take remaining),
                 bufferEnd := remaining, bufferPos := 0 }
      else if s.bufferPos ≥ s.bufferEnd then
        { s with bufferPos := 0, bufferEnd := 0 }
      else s
    let readSize := s1.bufferSize - s1.bufferEnd
    let got := s1.input.take readSize
    let s2 := { s1 with buffer := writeAt s1.buffer s1.bufferEnd got,
                        input := s1.input.drop readSize,
                        bufferEnd := s1.bufferEnd + got.length }
    (decide (s2.bufferPos + bytes ≤ s2.bufferEnd), s2)

/-- One pass of the loop body of `BufferedInputStream::advance`.  `r` is the
number of loop iterations still to run (`consumed - i`); the CR-LF branch
increments `consumed`, which leaves `r` unchanged while consuming two bytes.
`fuel` bounds the total number of iterations (every iteration strictly
decreases `r + (bufferEnd - bufferPos)`). -/
def advanceLoop : Nat → Nat → BISState → BISState
  | _, 0, s => s
  | 0, _ + 1, s => s
  | fuel + 1, r + 1, s =>
    if s.bufferPos < s.bufferEnd then
      let c := s.buffer.getD s.bufferPos 0
      let s1 := { s with bufferPos := s.bufferPos + 1,
                         totalBytesRead := s.totalBytesRead + 1 }
      if s.hasPendingCR ∧ c = LFb then
        advanceLoop fuel r { s1 with hasPendingCR := false, currentColumn := 1 }
      else
        let s2 := { s1 with hasPendingCR := false }
        if c = LFb then
          advanceLoop fuel r
            { s2 with currentLine := s2.currentLine + 1, currentColumn := 1 }
        else if c = CRb then
          let s3 := { s2 with currentLine := s2.currentLine + 1, currentColumn := 1 }
          if s3.bufferPos < s3.bufferEnd ∧ s3.buffer.getD s3.bufferPos 0 = LFb then
            advanceLoop fuel (r + 1)
              { s3 with bufferPos := s3.bufferPos + 1,
                        totalBytesRead := s3.totalBytesRead + 1 }
          else if s3.bufferPos ≥ s3.bufferEnd then
            advanceLoop fuel r { s3 with hasPendingCR := true }
          else
            advanceLoop fuel r s3
        else
          if ¬(c &&& 0xC0 = 0x80) then
            advanceLoop fuel r { s2 with currentColumn := s2.currentColumn + 1 }
          else
            advanceLoop fuel r s2
    else
      advanceLoop fuel r s

/-- `BufferedInputStream::advance(bytes)`. -/
def advanceBIS (s : BISState) (bytes : Nat) : BISState :=
  advanceLoop (bytes + (s.bufferEnd - s.bufferPos) + 1) bytes s

/-- The continuation-byte loop of `BufferedInputStream::getChar` (indices
`1 .. bytes-1`); `none` models the early `return -2`. -/
def contLoop (buf : List Nat) (pos : Nat) : Nat → List Nat → Option Nat
  | cp, [] => some cp
  | cp, i :: rest =>
    let b := buf.getD (pos + i) 0
    if ¬(b &&& 0xC0 = 0x80) then none
    else contLoop buf pos ((cp <<< 6) ||| (b &&& 0x3F)) rest

/-- `BufferedInputStream::getChar`. -/
def getChar (s : BISState) : Int × BISState :=
  if s.encoding ≠ .UTF8 ∧ s.encoding ≠ .UTF8_NO_BOM then (-2, s)
  else
    match ensureData s 1 with
    | (false, s1) => (-1, s1)
    | (true, s1) =>
      let first := s1.buffer.getD s1.bufferPos 0
      if first < 0x80 then
        let s2 := advanceBIS s1 1
        (if first = 0 then (-2 : Int) else (first : Int), s2)
      else
        let cls : Option (Nat × Nat) :=
          if first &&& 0xE0 = 0xC0 then some (2, first &&& 0x1F)
          else if first &&& 0xF0 = 0xE0 then some (3, first &&& 0x0F)
          else if first &&& 0xF8 = 0xF0 then some (4, first &&& 0x07)
          else none
        match cls with
        | none => (-2, advanceBIS s1 1)
        | some (bytes, cp0) =>
          match ensureData s1 bytes with
          | (false, s2) => (-2, s2)
          | (true, s2) =>
            match contLoop s2.buffer s2.bufferPos cp0 (List.range' 1 (bytes - 1)) with
            | none => (-2, advanceBIS s2 1)
            | some cp =>
              if cp > 0x10FFFF ∨ (0xD800 ≤ cp ∧ cp ≤ 0xDFFF) then
                (-2, advanceBIS s2 1)
              else if (bytes = 2 ∧ cp < 0x80) ∨ (bytes = 3 ∧ cp < 0x800) ∨
                      (bytes = 4 ∧ cp < 0x10000) then
                (-2, advanceBIS s2 1)
              else
                ((cp : Int), advanceBIS s2 bytes)

/-- `BufferedInputStream::peekChar`: run `getChar`, then restore
`bufferPos_`, `currentLine_`, `currentColumn_`, `totalBytesRead_` (and
nothing else). -/
def peekChar (s : BISState) : Int × BISState :=
  let (ch, s1) := getChar s
  (ch, { s1 with bufferPos := s.bufferPos, currentLine := s.currentLine,
                 currentColumn := s.currentColumn,
                 totalBytesRead := s.totalBytesRead })

/-- `BufferedInputStream::fillBuffer` at construction time (the stream is
still good; a read of zero bytes leaves the state untouched). -/
def fillBuffer (s : BISState) : BISState :=
  let got := s.input.take s.bufferSize
  if got.length = 0 then s
  else { s with buffer := writeAt s.buffer 0 got,
                input := s.input.drop s.bufferSize,
                bufferPos := 0, bufferEnd := got.length }

/-- `BufferedInputStream::detectEncoding`. -/
def detectEncoding (s : BISState) : BISState :=
  if s.bufferEnd < 4 then { s with encoding := .UTF8_NO_BOM }
  else
    let b0 := s.buffer.getD 0 0
    let b1 := s.buffer.getD 1 0
    let b2 := s.buffer.getD 2 0
    let b3 := s.buffer.getD 3 0
    if b0 = 0xEF ∧ b1 = 0xBB ∧ b2 = 0xBF then
      { s with encoding := .UTF8, bomSize := 3, bufferPos := 3, totalBytesRead := 3 }
    else if b0 = 0xFE ∧ b1 = 0xFF then
      { s with encoding := .UTF16_BE, bomSize := 2, bufferPos := 2, totalBytesRead := 2 }
    else if b0 = 0xFF ∧ b1 = 0xFE then
      if 4 ≤ s.bufferEnd ∧ b2 = 0 ∧ b3 = 0 then
        { s with encoding := .UTF32_LE, bomSize := 4, bufferPos := 4, totalBytesRead := 4 }
      else
        { s with encoding := .UTF16_LE, bomSize := 2, bufferPos := 2, totalBytesRead := 2 }
    else
      { s with encoding := .UTF8_NO_BOM, bomSize := 0 }

/-- The `BufferedInputStream(stream, bufferSize)` constructor: member
initialisation, then `fillBuffer()`, then `detectEncoding()`. -/
def mkStream (input : List Nat) (bufferSize : Nat) : BISState :=
  detectEncoding (fillBuffer
    { input := input, bufferSize := bufferSize,
      buffer := List.replicate bufferSize 0,
      bufferPos := 0, bufferEnd := 0,
      currentLine := 1, currentColumn := 1, totalBytesRead := 0,
      encoding := .UTF8_NO_BOM, bomSize := 0, hasPendingCR := false })

/-- `BufferedInputStream::getTotalBytesRead`. -/
def getTotalBytesRead (s : BISState) : Nat := s.totalBytesRead - s.bomSize

/-- Unread bytes currently sitting in the buffer window. -/
def window (s : BISState) : List Nat :=
  (s.buffer.drop s.bufferPos).take (s.bufferEnd - s.bufferPos)

/-- Bytes still to come: buffer window plus undelivered stream bytes. -/
def totalAvail (s : BISState) : Nat :=
  (s.bufferEnd - s.bufferPos) + s.input.length

/-- Well-formedness of a stream state: the cursor invariants, the fixed
buffer size, byte-valued contents, and a supported encoding.  `mkStream`
establishes this and every operation preserves it. -/
def WfBIS (s : BISState) : Prop :=
  s.bufferPos ≤ s.bufferEnd ∧ s.bufferEnd ≤ s.bufferSize ∧
  s.buffer.length = s.bufferSize ∧
  (∀ b ∈ s.buffer, b < 256) ∧ (∀ b ∈ s.input, b < 256) ∧
  (s.encoding = .UTF8 ∨ s.encoding = .UTF8_NO_BOM)

instance (s : BISState) : Decidable (WfBIS s) := by
  unfold WfBIS; infer_instance

/-! ## Tokenizer types (src/src/XMLTokenizerTypes.h) -/

inductive XMLTokenType where
  | StartTag | EndTag | EmptyTag
  | AttributeName | AttributeValue
  | Text | Comment | PI | CDATA | DOCTYPE
  | DocumentStart | DocumentEnd | Error
deriving Repr, DecidableEq

inductive TokenizerErrorCode where
  | None
  | UnexpectedEOF | IoError
  | InvalidCharAfterLT | InvalidCharInName | UnterminatedTag
  | ExpectedEqualsAfterAttrName | ExpectedQuoteForAttrValue
  | InvalidUTF8 | MalformedEntity
  | UnterminatedComment | BadCommentDoubleDash | UnterminatedCData | UnterminatedPI
  | LimitExceeded
deriving Repr, DecidableEq

inductive ErrorSeverity where
  | Warning | Recoverable | Fatal
deriving Repr, DecidableEq

structure SourcePosition where
  byteOffset : Nat := 0
  line : Nat := 1
  column : Nat := 1
deriving Repr, DecidableEq

/-- `XMLToken`.  `dataPtr = some (allocId, offset)` models the `data`
pointer as a pair of owning-allocation identifier and byte offset;
`none` models `nullptr`. -/
structure XMLToken where
  dataPtr : Option (Nat × Nat) := none
  byteOffset : Nat := 0
  length : Nat := 0
  line : Nat := 1
  column : Nat := 1
  type : XMLTokenType := .Text
deriving Repr, DecidableEq

/-- `TokenizerError` record (the `msg` pointer is an (allocation, offset)
pair into the error arena). -/
structure TokenizerError where
  code : TokenizerErrorCode
  sev : ErrorSeverity
  wherePos : SourcePosition
  msgPtr : Nat × Nat
  msgLen : Nat
deriving Repr, DecidableEq

structure TokenizerOptions where
  flags : Nat := 0x3F
deriving Repr, DecidableEq

def TokenizerOptions.normalizeLineEndings (o : TokenizerOptions) : Bool :=
  o.flags &&& 4 ≠ 0

structure TokenizerLimits where
  maxNameBytes : Nat := 4 * 1024
  maxAttrValueBytes : Nat := 1024 * 1024
  maxTextRunBytes : Nat := 8 * 1024 * 1024
  maxCommentBytes : Nat := 1024 * 1024
  maxCdataBytes : Nat := 8 * 1024 * 1024
  maxDoctypeBytes : Nat := 128 * 1024
  maxAttrsPerElement : Nat := 1024
  maxPerTagBytes : Nat := 8 * 1024 * 1024
  maxOpenDepth : Nat := 1024
deriving Repr, DecidableEq

/-- Compile-time caps (`namespace Caps`). -/
def AbsMaxNameBytes : Nat := 64 * 1024
def AbsMaxAttrValueBytes : Nat := 64 * 1024 * 1024
def AbsMaxTextRunBytes : Nat := 64 * 1024 * 1024
def AbsMaxCommentBytes : Nat := 16 * 1024 * 1024
def AbsMaxCdataBytes : Nat := 64 * 1024 * 1024
def AbsMaxDoctypeBytes : Nat := 8 * 1024 * 1024
def AbsMaxPerTagBytes : Nat := 16 * 1024 * 1024

inductive TkState where
  | Content | TagOpen
  | StartTagName | EndTagName | InTag
  | AttrName | AfterAttrName | BeforeAttrValue | AttrValueQuoted
  | AfterBang | CommentStart1 | CommentStart2 | InComment | CommentEnd1 | CommentEnd2
  | CDataStart | InCData | CDataEnd1 | CDataEnd2
  | PITarget | PIContent
  | Resyncing
deriving Repr, DecidableEq

/-- `TagBuffer`: `alloc` is the identity of the owned heap block
(0 = no block, i.e. a null `unique_ptr`); `data` is the list of the
`used` bytes written so far. -/
structure TagBufferM where
  alloc : Nat := 0
  cap : Nat := 0
  used : Nat := 0
  data : List Nat := []
deriving Repr, DecidableEq

structure TagContextM where
  nameOff : Nat := 0
  nameLen : Nat := 0
  attrCount : Nat := 0
  sawSlashBeforeGT : Bool := false
  startLine : Nat := 1
  startColumn : Nat := 1
  startByteOffset : Nat := 0
  tailSegLen : Nat := 0
deriving Repr, DecidableEq

structure TagFrameM where
  buf : TagBufferM := {}
  ctx : TagContextM := {}
  startPos : SourcePosition := {}
deriving Repr, DecidableEq

/-- The error arena (`std::vector<char> errorArena_`): `alloc` identifies
the current heap allocation backing `data()`; growing the vector beyond
`cap` reallocates, producing a fresh identifier. -/
structure ErrorArenaM where
  alloc : Nat := 0
  cap : Nat := 0
  data : List Char := []
deriving Repr, DecidableEq

/-- Tokenizer flag bits (`TokenizerFlags`). -/
def FlagStarted : Nat := 1
def FlagEnded : Nat := 2

/-- `XMLTokenizer` state.  The tag stack and the freelist are lists whose
HEAD is the `std::vector` back (top); `allocCounter` provides fresh heap
allocation identifiers. -/
structure TokState where
  ins : BISState
  opts : TokenizerOptions := {}
  lims : TokenizerLimits := {}
  state : TkState := .Content
  flagsBits : Nat := 0
  tagStack : List TagFrameM := []
  freelist : List Nat := []
  freelistBlockSize : Nat := 0
  errors : List TokenizerError := []
  errorArena : ErrorArenaM := {}
  textArena : List Nat := []
  pendingStart : SourcePosition := {}
  pendingStartValid : Bool := false
  allocCounter : Nat := 0
deriving Repr, DecidableEq

def TokState.testFlag (s : TokState) (m : Nat) : Bool := s.flagsBits &&& m ≠ 0
def TokState.setFlag (s : TokState) (m : Nat) : TokState :=
  { s with flagsBits := s.flagsBits ||| m }

def clampBL (v cap : Nat) : Nat := if v > cap then cap else v

/-- The `XMLTokenizer` constructor: clamp limits to the caps, clear all
state, bind the freelist block size to the sanitized per-tag capacity. -/
def mkTokenizer (ins : BISState) (opts : TokenizerOptions := {})
    (lims : TokenizerLimits := {}) : TokState :=
  let l : TokenizerLimits :=
    { lims with
      maxNameBytes := clampBL lims.maxNameBytes AbsMaxNameBytes,
      maxAttrValueBytes := clampBL lims.maxAttrValueBytes AbsMaxAttrValueBytes,
      maxTextRunBytes := clampBL lims.maxTextRunBytes AbsMaxTextRunBytes,
      maxCommentBytes := clampBL lims.maxCommentBytes AbsMaxCommentBytes,
      maxCdataBytes := clampBL lims.maxCdataBytes AbsMaxCdataBytes,
      maxDoctypeBytes := clampBL lims.maxDoctypeBytes AbsMaxDoctypeBytes,
      maxPerTagBytes := clampBL lims.maxPerTagBytes AbsMaxPerTagBytes }
  { ins := ins, opts := opts, lims := l, state := .Content, flagsBits := 0,
    tagStack := [], freelist := [], freelistBlockSize := l.maxPerTagBytes,
    errors := [], errorArena := {}, textArena := [],
    pendingStart := {}, pendingStartValid := false, allocCounter := 0 }

/-! ## Tokenizer operations (src/src/XMLTokenizer.cpp)

`currentPosition`, `getCp`, `peekCp` and `markTokenStart` are declared in
`XMLTokenizer.h`, which is not among the sources; they are modelled from the
spec (§4.2, §6, §4.4 Position marking) and from the behaviour the unit tests
assert: the tokenizer position is the stream position
(`getTotalBytesRead`/line/column), `getCp`/`peekCp` delegate to the stream,
and `markTokenStart` captures `currentPosition()` into the pending-start
slot. -/

/-- Modelled from the spec: `XMLTokenizer::currentPosition` reads the
stream accessors (`getTotalBytesRead`, `getCurrentLine`,
`getCurrentColumn`); the test `XMLTokenizer_EmitError_PositionTracking`
fixes this behaviour. -/
def currentPosition (s : TokState) : SourcePosition :=
  ⟨getTotalBytesRead s.ins, s.ins.currentLine, s.ins.currentColumn⟩

/-- Modelled from the spec: `getCp` delegates to the stream `getChar`. -/
def getCp (s : TokState) : Int × TokState :=
  let (c, b) := getChar s.ins
  (c, { s with ins := b })

/-- Modelled from the spec: `peekCp` delegates to the stream `peekChar`. -/
def peekCp (s : TokState) : Int × TokState :=
  let (c, b) := peekChar s.ins
  (c, { s with ins := b })

/-- Modelled from the spec (§4.4, Position marking): capture
`currentPosition()` into the pending-start slot. -/
def markTokenStart (s : TokState) : TokState :=
  { s with pendingStart := currentPosition s, pendingStartValid := true }

/-- `memcpy(dst, src, n)` reading `n` chars from a message: when the caller
passes `n` bytes but the message is shorter the Cource reads past the
terminator (the NUL placeholder `Char.ofNat 0` stands for those bytes). -/
def copyChars (l : List Char) (n : Nat) : List Char :=
  l.take n ++ List.replicate (n - l.length) (Char.ofNat 0)

/-- `XMLTokenizer::internError`: append the (NUL-terminated) message to the
error arena, growing the vector geometrically; returns the pointer
(allocation id, offset) of the interned message. -/
def internError (s : TokState) (msg : Option String) (len : Nat) :
    (Nat × Nat) × TokState :=
  let src := (match msg with | none => "Tokenizer error" | some m => m)
  let used := (match msg with | none => 15 | some _ => len)
  let need := s.errorArena.data.length + used + 1
  let realloc := s.errorArena.cap < need
  let newCap :=
    if realloc then
      let c0 := if s.errorArena.cap = 0 then 256 else s.errorArena.cap * 2
      if c0 < need then need else c0
    else s.errorArena.cap
  let newAlloc := if realloc then s.allocCounter + 1 else s.errorArena.alloc
  let base := s.errorArena.data.length
  let data2 := s.errorArena.data ++ copyChars src.data used ++ [Char.ofNat 0]
  ((newAlloc, base),
   { s with errorArena := ⟨newAlloc, newCap, data2⟩,
            allocCounter := if realloc then s.allocCounter + 1 else s.allocCounter })

/-- `XMLTokenizer::emitError`: fill the error token, append one record to
`errors_`, set `Ended` iff the severity is `Fatal`; always returns true. -/
def emitError (s : TokState) (code : TokenizerErrorCode) (sev : ErrorSeverity)
    (msg : Option String) (msgLen : Nat) : TokState × XMLToken × Bool :=
  let whereP := if s.pendingStartValid then s.pendingStart else currentPosition s
  let s0 := { s with pendingStartValid := false }
  let effLen := (match msg with | none => 15 | some _ => msgLen)
  let (ptr, s1) := internError s0 msg effLen
  let tok : XMLToken :=
    { dataPtr := some ptr, byteOffset := whereP.byteOffset, length := effLen,
      line := whereP.line, column := whereP.column, type := .Error }
  let rcd : TokenizerError :=
    { code := code, sev := sev, wherePos := whereP, msgPtr := ptr, msgLen := effLen }
  let s2 := { s1 with errors := s1.errors ++ [rcd] }
  let s3 := if sev = .Fatal then s2.setFlag FlagEnded else s2
  (s3, tok, true)

/-- `XMLTokenizer::makeTextToken`: a Text token pointing into the text
arena (allocation id 0 is reserved for the text arena). -/
def makeTextToken (s : TokState) (off len : Nat) : TokState × XMLToken :=
  let whereP := if s.pendingStartValid then s.pendingStart else currentPosition s
  let s1 := { s with pendingStartValid := false }
  (s1,
   { dataPtr := if len ≠ 0 then some (0, off) else none,
     byteOffset := whereP.byteOffset, length := len,
     line := whereP.line, column := whereP.column, type := .Text })

/-- `XMLTokenizer::makeTagToken`: a tag-scoped token pointing into the top
frame tag buffer. -/
def makeTagToken (s : TokState) (ty : XMLTokenType) (off len : Nat) :
    TokState × XMLToken :=
  let whereP := if s.pendingStartValid then s.pendingStart else currentPosition s
  let s1 := { s with pendingStartValid := false }
  let dp : Option (Nat × Nat) :=
    match s.tagStack with
    | frame :: _ => if len ≠ 0 ∧ frame.buf.alloc ≠ 0 then some (frame.buf.alloc, off) else none
    | [] => none
  (s1,
   { dataPtr := dp, byteOffset := whereP.byteOffset, length := len,
     line := whereP.line, column := whereP.column, type := ty })

/-- `XMLTokenizer::scanText` loop body; `fuel` bounds the iteration count
(each iteration consumes at least one byte of `totalAvail`). -/
def scanTextLoop : Nat → TokState → TokState × Option XMLToken × Bool
  | 0, s => (s, none, false)
  | fuel + 1, s =>
    let (cp, s1) := peekCp s
    if cp = 60 ∨ cp < 0 then
      let (s2, tok) := makeTextToken s1 0 s1.textArena.length
      (s2, some tok, true)
    else
      let s2 := (getCp s1).2
      let next :=
        if s2.opts.normalizeLineEndings ∧ cp = 13 then
          let (pk, s3) := peekCp s2
          let s4 := if pk = 10 then (getCp s3).2 else s3
          some { s4 with textArena := s4.textArena ++ [10] }
        else
          let (res, bytes) := utf8encode cp.toNat 4
          if res.status ≠ .Ok then none
          else some { s2 with textArena := s2.textArena ++ bytes }
      match next with
      | none =>
        let (s3, tok, b) := emitError s2 .InvalidUTF8 .Fatal
          (some "Failed to encode code point") 25
        (s3, some tok, b)
      | some s5 =>
        if s5.textArena.length ≥ s5.lims.maxTextRunBytes then
          let s6 := s5.setFlag FlagEnded
          let (s7, tok, b) := emitError s6 .LimitExceeded .Fatal
            (some "Text run exceeds limit") 23
          (s7, some tok, b)
        else
          scanTextLoop fuel s5

/-- `XMLTokenizer::scanText`. -/
def scanText (s : TokState) : TokState × Option XMLToken × Bool :=
  let (cp, s1) := peekCp s
  if cp = 60 then ({ s1 with state := .TagOpen }, none, false)
  else if cp < 0 then (s1, none, false)
  else
    let s2 := markTokenStart { s1 with textArena := [] }
    scanTextLoop (totalAvail s2.ins + 1) s2

/-- `XMLTokenizer::ensureCurrentTagCapacity`: grow the top frame buffer
geometrically (start 256, double, cap at `maxPerTagBytes`), reusing a
freelist block when its size matches.  A growth step that takes the
allocation path gets a fresh allocation identifier (the address changes);
the freelist path moves the cached block in without copying the old
contents (its `used` bytes become unspecified, modelled as zeros). -/
def ensureCurrentTagCapacity (s : TokState) (need : Nat) : Bool × TokState :=
  match s.tagStack with
  | [] => (false, s)
  | frame :: rest =>
    if need ≤ frame.buf.cap - frame.buf.used then (true, s)
    else if need > s.lims.maxPerTagBytes then (false, s.setFlag FlagEnded)
    else
      let c0 := if frame.buf.cap ≠ 0 then frame.buf.cap * 2 else 256
      let c1 := if c0 < frame.buf.used + need then frame.buf.used + need else c0
      let newCap := if c1 > s.lims.maxPerTagBytes then s.lims.maxPerTagBytes else c1
      match s.freelist, decide (s.freelistBlockSize = newCap) with
      | b :: fr, true =>
        let buf2 : TagBufferM :=
          { frame.buf with
            alloc := b
            cap := newCap
            data := List.replicate frame.buf.used 0 }
        (true, { s with tagStack := { frame with buf := buf2 } :: rest,
                        freelist := fr })
      | _, _ =>
        let fresh := s.allocCounter + 1
        (true, { s with
          allocCounter := fresh,
          tagStack := { frame with
            buf := { frame.buf with alloc := fresh, cap := newCap } } :: rest })

/-- `XMLTokenizer::appendToCurrentTagBuf` (`none` models `kBadOff`). -/
def appendToCurrentTagBuf (s : TokState) (bytes : List Nat) :
    Option Nat × TokState :=
  match s.tagStack with
  | [] => (none, s)
  | _ :: _ =>
    match ensureCurrentTagCapacity s bytes.length with
    | (false, s1) => (none, s1)
    | (true, s1) =>
      match s1.tagStack with
      | frame :: rest =>
        let off := frame.buf.used
        let buf2 : TagBufferM :=
          { frame.buf with
            used := off + bytes.length
            data := frame.buf.data ++ bytes }
        (some off, { s1 with tagStack := { frame with buf := buf2 } :: rest })
      | [] => (none, s1)

/-- `XMLTokenizer::ensureCurrentTagBuffer`: allocate (or take from the
freelist) the full-size `maxPerTagBytes` block for the top frame; never
grows or moves an existing block. -/
def ensureCurrentTagBuffer (s : TokState) : Bool × TokState :=
  match s.tagStack with
  | [] => (false, s)
  | frame :: rest =>
    if s.lims.maxPerTagBytes = 0 then (false, s.setFlag FlagEnded)
    else if frame.buf.alloc ≠ 0 then (true, s)
    else
      match s.freelist with
      | b :: fr =>
        (true, { s with
          tagStack := { frame with
            buf := { alloc := b, cap := s.lims.maxPerTagBytes, used := 0, data := [] } } :: rest,
          freelist := fr })
      | [] =>
        let fresh := s.allocCounter + 1
        (true, { s with
          allocCounter := fresh,
          tagStack := { frame with
            buf := { alloc := fresh, cap := s.lims.maxPerTagBytes, used := 0, data := [] } } :: rest })

/-- `XMLTokenizer::pushTagFrame`. -/
def pushTagFrame (s : TokState) : Bool × TokState :=
  if s.tagStack.length ≥ s.lims.maxOpenDepth then
    let s1 := s.setFlag FlagEnded
    let (s2, _, _) := emitError s1 .LimitExceeded .Fatal
      (some "Maximum tag nesting depth exceeded") 34
    (false, s2)
  else
    let pos := currentPosition s
    let frame : TagFrameM :=
      { buf := {}, startPos := pos,
        ctx := { startLine := pos.line, startColumn := pos.column,
                 startByteOffset := pos.byteOffset } }
    (true, { s with tagStack := frame :: s.tagStack })

/-- A pointer (allocation id, offset) with `len` readable bytes is valid in
the error arena iff it refers to the arena current allocation and lies
within the stored data. -/
def errPtrValid (s : TokState) (p : Nat × Nat) (len : Nat) : Prop :=
  p.1 = s.errorArena.alloc ∧ p.2 + len ≤ s.errorArena.data.length

instance (s : TokState) (p : Nat × Nat) (len : Nat) :
    Decidable (errPtrValid s p len) := by
  unfold errPtrValid; infer_instance

/-- The bytes a valid error-arena pointer refers to. -/
def errPtrChars (s : TokState) (p : Nat × Nat) (len : Nat) : List Char :=
  (s.errorArena.data.drop p.2).take len

/-- Intern a sequence of further messages (each with its own length). -/
def internAll (s : TokState) : List String → TokState
  | [] => s
  | m :: rest => internAll (internError s (some m) m.length).2 rest

/-! ## Concrete runs used by the evaluation theorems -/

/-- Stream over the bytes of `"A\r\nB"` with buffer size 2 (the setting of
the repository test `PeekCRLFStateRegression`). -/
def c3_stream0 : BISState := mkStream [0x41, 0x0D, 0x0A, 0x42] 2

/-- The same stream after consuming `A` and the CR. -/
def c3_afterCR : BISState := (getChar (getChar c3_stream0).2).2

def c3_peek1 : Int × BISState := peekChar c3_afterCR

def c3_peek2 : Int × BISState := peekChar c3_peek1.2

/-- The bytes of `"line1\r\nline2"`. -/
def c2_input : List Nat :=
  [0x6C, 0x69, 0x6E, 0x65, 0x31, 0x0D, 0x0A, 0x6C, 0x69, 0x6E, 0x65, 0x32]

/-- Tokenizer over that input with `NormalizeLineEndings` cleared
(flags `0x3F &&& ~4 = 0x3B`), default limits. -/
def c2_tok : TokState := mkTokenizer (mkStream c2_input 64) ⟨0x3B⟩ {}

/-- The stream of `c2_tok` after consuming `l`, `i`, `n`, `e`, `1`. -/
def c2_after5 : BISState :=
  (getChar (getChar (getChar (getChar (getChar (mkStream c2_input 64)).2).2).2).2).2

/-- A stream whose whole input is exactly the three UTF-8 BOM bytes. -/
def c8_bom3 : BISState := mkStream [0xEF, 0xBB, 0xBF] 16

/-- A stream whose input is the BOM followed by `A`. -/
def c8_bom4 : BISState := mkStream [0xEF, 0xBB, 0xBF, 0x41] 16

/-- Fresh tokenizer (over an empty stream) for the tag-buffer run. -/
def c1_tok : TokState := mkTokenizer (mkStream [] 16) {} {}

def c1_push : TokState := (pushTagFrame c1_tok).2

/-- Append a ten-byte element name into the tag buffer. -/
def c1_app1 : TokState :=
  (appendToCurrentTagBuf c1_push
    [0x61, 0x62, 0x63, 0x64, 0x65, 0x66, 0x67, 0x68, 0x69, 0x6A]).2

/-- The StartTag token emitted for that name. -/
def c1_tokTag : XMLToken := (makeTagToken c1_app1 .StartTag 0 10).2

/-- Append 300 more bytes (attribute data) into the same open frame. -/
def c1_app2 : TokState :=
  (appendToCurrentTagBuf c1_app1 (List.replicate 300 0x41)).2

/-- Fresh tokenizer for the error-arena run. -/
def c7_tok : TokState := mkTokenizer (mkStream [0x74] 8) {} {}

def c7_msg1 : String := String.mk (List.replicate 300 'x')

def c7_msg2 : String := String.mk (List.replicate 300 'y')

def c7_emit1 : TokState × XMLToken × Bool :=
  emitError c7_tok .LimitExceeded .Fatal (some c7_msg1) 300

def c7_emit2 : TokState × XMLToken × Bool :=
  emitError c7_emit1.1 .InvalidUTF8 .Fatal (some c7_msg2) 300

/-- Cumulative arena bytes a list of interned messages needs
(each message plus its NUL terminator). -/
def sumNeeds (msgs : List String) : Nat :=
  (msgs.map (fun m => m.length + 1)).sum

/-! ## Arithmetic bridges for the bitwise operations -/

theorem lor_add {k : Nat} (a b : Nat) (ha : a % 2 ^ k = 0) (hb : b < 2 ^ k) :
    a ||| b = a + b := by
  obtain ⟨q, rfl⟩ := Nat.dvd_of_mod_eq_zero ha
  exact (Nat.mul_add_lt_is_or hb q).symm

theorem lor_add_16 (a b : Nat) (ha : a % 16 = 0) (hb : b < 16) : a ||| b = a + b := by
  have h : (2:Nat) ^ 4 = 16 := by norm_num
  exact lor_add a b (by rw [h]; exact ha) (by rw [h]; exact hb)

theorem lor_add_32 (a b : Nat) (ha : a % 32 = 0) (hb : b < 32) : a ||| b = a + b := by
  have h : (2:Nat) ^ 5 = 32 := by norm_num
  exact lor_add a b (by rw [h]; exact ha) (by rw [h]; exact hb)

theorem lor_add_64 (a b : Nat) (ha : a % 64 = 0) (hb : b < 64) : a ||| b = a + b := by
  have h : (2:Nat) ^ 6 = 64 := by norm_num
  exact lor_add a b (by rw [h]; exact ha) (by rw [h]; exact hb)

theorem lor_add_4096 (a b : Nat) (ha : a % 4096 = 0) (hb : b < 4096) :
    a ||| b = a + b := by
  have h : (2:Nat) ^ 12 = 4096 := by norm_num
  exact lor_add a b (by rw [h]; exact ha) (by rw [h]; exact hb)

theorem lor_add_262144 (a b : Nat) (ha : a % 262144 = 0) (hb : b < 262144) :
    a ||| b = a + b := by
  have h : (2:Nat) ^ 18 = 262144 := by norm_num
  exact lor_add a b (by rw [h]; exact ha) (by rw [h]; exact hb)

theorem and_7 (x : Nat) : x &&& 7 = x % 8 := by
  have h := Nat.and_pow_two_sub_one_eq_mod x 3
  norm_num at h
  exact h

theorem and_15 (x : Nat) : x &&& 15 = x % 16 := by
  have h := Nat.and_pow_two_sub_one_eq_mod x 4
  norm_num at h
  exact h

theorem and_31 (x : Nat) : x &&& 31 = x % 32 := by
  have h := Nat.and_pow_two_sub_one_eq_mod x 5
  norm_num at h
  exact h

theorem and_63 (x : Nat) : x &&& 63 = x % 64 := by
  have h := Nat.and_pow_two_sub_one_eq_mod x 6
  norm_num at h
  exact h

theorem shiftL_6 (x : Nat) : x <<< 6 = x * 64 := by
  rw [Nat.shiftLeft_eq]

theorem shiftL_12 (x : Nat) : x <<< 12 = x * 4096 := by
  rw [Nat.shiftLeft_eq]

theorem shiftL_18 (x : Nat) : x <<< 18 = x * 262144 := by
  rw [Nat.shiftLeft_eq]

theorem shiftR_6 (x : Nat) : x >>> 6 = x / 64 := by
  rw [Nat.shiftRight_eq_div_pow]

theorem shiftR_12 (x : Nat) : x >>> 12 = x / 4096 := by
  rw [Nat.shiftRight_eq_div_pow]

theorem shiftR_18 (x : Nat) : x >>> 18 = x / 262144 := by
  rw [Nat.shiftRight_eq_div_pow]

/-- Mask test for continuation bytes, as a range condition. -/
theorem and_C0_iff : ∀ b < 256, ((b &&& 192 = 128) ↔ (128 ≤ b ∧ b ≤ 191)) := by decide

theorem and_E0_iff : ∀ b < 256, ((b &&& 224 = 192) ↔ (192 ≤ b ∧ b ≤ 223)) := by decide

theorem and_F0_iff : ∀ b < 256, ((b &&& 240 = 224) ↔ (224 ≤ b ∧ b ≤ 239)) := by decide

theorem and_F8_iff : ∀ b < 256, ((b &&& 248 = 240) ↔ (240 ≤ b ∧ b ≤ 247)) := by decide

theorem and_C0_of_cont : ∀ m < 64, (128 + m) &&& 192 = 128 := by decide

theorem surr_mask_low_nested : ∀ a < 8, ∀ r < 256, (256 * a + r) &&& 0xFFFFF800 = 0 := by
  decide

theorem surr_mask_low (x : Nat) (hx : x < 2048) : x &&& 0xFFFFF800 = 0 := by
  have h := surr_mask_low_nested (x / 256) (by omega) (x % 256) (by omega)
  have e : 256 * (x / 256) + x % 256 = x := by omega
  rwa [e] at h

theorem surr_mask_block_nested :
    ∀ a < 4, ∀ r < 256, (2048 * (256 * a + r)) &&& 0xFFFFF800 = 2048 * (256 * a + r) := by
  decide

theorem surr_mask_block (q : Nat) (hq : q < 1024) :
    (2048 * q) &&& 0xFFFFF800 = 2048 * q := by
  have h := surr_mask_block_nested (q / 256) (by omega) (q % 256) (by omega)
  have e : 256 * (q / 256) + q % 256 = q := by omega
  rwa [e] at h

/-- The surrogate mask test is the range test, below `2^21`. -/
theorem surr_mask_iff (x : Nat) (hx : x < 0x200000) :
    (x &&& 0xFFFFF800 = 0xD800) ↔ (0xD800 ≤ x ∧ x < 0xE000) := by
  have hd := Nat.div_add_mod x 2048
  have hq : x / 2048 < 1024 := by omega
  have hr : x % 2048 < 2048 := Nat.mod_lt _ (by norm_num)
  have e1 : x = (2048 * (x / 2048)) ||| (x % 2048) := by
    rw [lor_add (k := 11) _ _ (by omega) (by norm_num; omega)]
    omega
  have e2 : x &&& 0xFFFFF800 = 2048 * (x / 2048) := by
    conv_lhs => rw [e1]
    rw [Nat.and_distrib_right, surr_mask_block _ hq, surr_mask_low _ hr,
      Nat.or_zero]
  rw [e2]
  omega

theorem check_surrogates_iff (cp : Nat) (h : cp < 0x200000) :
    check_surrogates cp = true ↔ ¬(0xD800 ≤ cp ∧ cp < 0xE000) := by
  unfold check_surrogates
  rw [← surr_mask_iff cp h]
  simp

theorem check_surrogates_of_low (cp : Nat) (h : cp < 0xD800) :
    check_surrogates cp = true := by
  rw [check_surrogates_iff cp (by omega)]
  omega

/-! ## Characterizations of the UTF-8 table and codec -/

theorem info_of_ascii (b : Nat) (h : b ≤ 0x7F) :
    make_utf8_info b = ⟨1, 0x7F, 0, 0⟩ := by
  unfold make_utf8_info
  split_ifs <;> first | rfl | omega

theorem info_of_cont (b : Nat) (h1 : 0x80 ≤ b) (h2 : b ≤ 0xBF) :
    make_utf8_info b = ⟨0, 0, 0, 0⟩ := by
  unfold make_utf8_info
  split_ifs <;> first | rfl | omega

theorem info_of_overlong (b : Nat) (h1 : 0xC0 ≤ b) (h2 : b ≤ 0xC1) :
    make_utf8_info b = ⟨0, 0, 0, 0⟩ := by
  unfold make_utf8_info
  split_ifs <;> first | rfl | omega

theorem info_of_two (b : Nat) (h1 : 0xC2 ≤ b) (h2 : b ≤ 0xDF) :
    make_utf8_info b = ⟨2, 0x1F, 6, 0x80⟩ := by
  unfold make_utf8_info
  split_ifs <;> first | rfl | omega

theorem info_of_three (b : Nat) (h1 : 0xE0 ≤ b) (h2 : b ≤ 0xEF) :
    make_utf8_info b = ⟨3, 0x0F, 12, 0x800⟩ := by
  unfold make_utf8_info
  split_ifs <;> first | rfl | omega

theorem info_of_four (b : Nat) (h1 : 0xF0 ≤ b) (h2 : b ≤ 0xF4) :
    make_utf8_info b = ⟨4, 0x07, 18, 0x10000⟩ := by
  unfold make_utf8_info
  split_ifs <;> first | rfl | omega

theorem info_of_high (b : Nat) (h1 : 0xF5 ≤ b) :
    make_utf8_info b = ⟨0, 0, 0, 0⟩ := by
  unfold make_utf8_info
  split_ifs <;> first | rfl | omega

theorem encode_ascii (cp : Nat) (h : cp ≤ 0x7F) :
    utf8encode cp 4 = (⟨1, .Ok⟩, [cp]) := by
  have hs : check_surrogates cp = true := check_surrogates_of_low cp (by omega)
  have c1 : ¬(cp > 0x10FFFF) := by omega
  have c4 : ¬(4 < 1) := by omega
  simp only [utf8encode, hs, not_true, false_or]
  rw [if_neg c1, if_pos h, if_neg c4]
  have m1 : cp % 256 = cp := by omega
  rw [m1]

theorem encode_two (cp : Nat) (h1 : 0x80 ≤ cp) (h2 : cp ≤ 0x7FF) :
    utf8encode cp 4 = (⟨2, .Ok⟩, [192 + cp / 64, 128 + cp % 64]) := by
  have hs : check_surrogates cp = true := check_surrogates_of_low cp (by omega)
  have c1 : ¬(cp > 0x10FFFF) := by omega
  have c2 : ¬(cp ≤ 127) := by omega
  have c4 : ¬(4 < 2) := by omega
  simp only [utf8encode, hs, not_true, false_or]
  rw [if_neg c1, if_neg c2, if_pos h2, if_neg c4]
  simp only [shiftR_6, and_63]
  rw [lor_add_64 192 (cp / 64) (by omega) (by omega),
      lor_add_64 128 (cp % 64) (by omega) (by omega)]
  have m1 : (192 + cp / 64) % 256 = 192 + cp / 64 := by omega
  have m2 : (128 + cp % 64) % 256 = 128 + cp % 64 := by omega
  rw [m1, m2]

theorem encode_three (cp : Nat) (h1 : 0x800 ≤ cp) (h2 : cp ≤ 0xFFFF)
    (hs : check_surrogates cp = true) :
    utf8encode cp 4 =
      (⟨3, .Ok⟩, [224 + cp / 4096, 128 + cp / 64 % 64, 128 + cp % 64]) := by
  have c1 : ¬(cp > 0x10FFFF) := by omega
  have c2 : ¬(cp ≤ 127) := by omega
  have c3 : ¬(cp ≤ 2047) := by omega
  have c4 : ¬(4 < 3) := by omega
  simp only [utf8encode, hs, not_true, false_or]
  rw [if_neg c1, if_neg c2, if_neg c3, if_pos h2, if_neg c4]
  simp only [shiftR_12, shiftR_6, and_63]
  rw [lor_add_32 224 (cp / 4096) (by omega) (by omega),
      lor_add_64 128 (cp / 64 % 64) (by omega) (by omega),
      lor_add_64 128 (cp % 64) (by omega) (by omega)]
  have m1 : (224 + cp / 4096) % 256 = 224 + cp / 4096 := by omega
  have m2 : (128 + cp / 64 % 64) % 256 = 128 + cp / 64 % 64 := by omega
  have m3 : (128 + cp % 64) % 256 = 128 + cp % 64 := by omega
  rw [m1, m2, m3]

theorem encode_four (cp : Nat) (h1 : 0x10000 ≤ cp) (h2 : cp ≤ 0x10FFFF) :
    utf8encode cp 4 =
      (⟨4, .Ok⟩, [240 + cp / 262144, 128 + cp / 4096 % 64,
                  128 + cp / 64 % 64, 128 + cp % 64]) := by
  have hs : check_surrogates cp = true := by
    rw [check_surrogates_iff cp (by omega)]
    omega
  have c1 : ¬(cp > 0x10FFFF) := by omega
  have c2 : ¬(cp ≤ 127) := by omega
  have c3 : ¬(cp ≤ 2047) := by omega
  have c5 : ¬(cp ≤ 65535) := by omega
  have c4 : ¬(4 < 4) := by omega
  simp only [utf8encode, hs, not_true, false_or]
  rw [if_neg c1, if_neg c2, if_neg c3, if_neg c5, if_neg c4]
  simp only [shiftR_18, shiftR_12, shiftR_6, and_63]
  rw [lor_add_16 240 (cp / 262144) (by omega) (by omega),
      lor_add_64 128 (cp / 4096 % 64) (by omega) (by omega),
      lor_add_64 128 (cp / 64 % 64) (by omega) (by omega),
      lor_add_64 128 (cp % 64) (by omega) (by omega)]
  have m1 : (240 + cp / 262144) % 256 = 240 + cp / 262144 := by omega
  have m2 : (128 + cp / 4096 % 64) % 256 = 128 + cp / 4096 % 64 := by omega
  have m3 : (128 + cp / 64 % 64) % 256 = 128 + cp / 64 % 64 := by omega
  have m4 : (128 + cp % 64) % 256 = 128 + cp % 64 := by omega
  rw [m1, m2, m3, m4]

theorem decode_ascii (b0 : Nat) (h : b0 ≤ 0x7F) (rest : List Nat) :
    utf8decode (b0 :: rest) = ⟨b0, 1, .Ok⟩ := by
  simp only [utf8decode, List.length_cons, List.getD_eq_getElem?_getD,
    List.getElem?_cons_zero, List.getElem?_cons_succ, Option.getD_some,
    info_of_ascii b0 h]
  simp

/-- Full characterization of the decoder on a two-byte-starter window. -/
theorem decode_two_char (b0 b1 : Nat) (rest : List Nat)
    (h0a : 0xC2 ≤ b0) (h0b : b0 ≤ 0xDF) (hb1 : b1 < 256) :
    utf8decode (b0 :: b1 :: rest) =
      if 128 ≤ b1 ∧ b1 ≤ 191 then
        if (b0 % 32) * 64 + b1 % 64 < 128 then ⟨0, 1, .Invalid⟩
        else ⟨(b0 % 32) * 64 + b1 % 64, 2, .Ok⟩
      else ⟨0, 1, .Invalid⟩ := by
  simp only [utf8decode, List.length_cons, List.getD_eq_getElem?_getD,
    List.getElem?_cons_zero, List.getElem?_cons_succ, Option.getD_some,
    info_of_two b0 h0a h0b, and_C0_iff b1 hb1, and_31, and_63, shiftL_6]
  rw [lor_add_64 (b0 % 32 * 64) (b1 % 64) (by omega) (by omega)]
  split_ifs <;> first | rfl | (exfalso; first | assumption | omega)

/-- Full characterization of the decoder on a three-byte-starter window. -/
theorem decode_three_char (b0 b1 b2 : Nat) (rest : List Nat)
    (h0a : 0xE0 ≤ b0) (h0b : b0 ≤ 0xEF) (hb1 : b1 < 256) (hb2 : b2 < 256) :
    utf8decode (b0 :: b1 :: b2 :: rest) =
      if (128 ≤ b1 ∧ b1 ≤ 191) ∧ (128 ≤ b2 ∧ b2 ≤ 191) then
        if (b0 % 16) * 4096 + (b1 % 64) * 64 + b2 % 64 < 2048 then ⟨0, 1, .Invalid⟩
        else if ¬check_surrogates ((b0 % 16) * 4096 + (b1 % 64) * 64 + b2 % 64) then
          ⟨0, 1, .Invalid⟩
        else ⟨(b0 % 16) * 4096 + (b1 % 64) * 64 + b2 % 64, 3, .Ok⟩
      else ⟨0, 1, .Invalid⟩ := by
  simp only [utf8decode, List.length_cons, List.getD_eq_getElem?_getD,
    List.getElem?_cons_zero, List.getElem?_cons_succ, Option.getD_some,
    info_of_three b0 h0a h0b, and_C0_iff b1 hb1, and_C0_iff b2 hb2,
    and_15, and_63, shiftL_12, shiftL_6]
  rw [lor_add_4096 (b0 % 16 * 4096) (b1 % 64 * 64) (by omega) (by omega),
      lor_add_64 (b0 % 16 * 4096 + b1 % 64 * 64) (b2 % 64) (by omega) (by omega)]
  split_ifs <;> first | rfl | (exfalso; first | assumption | omega)

/-- Full characterization of the decoder on a four-byte-starter window
(starters `0xF0`-`0xF4`). -/
theorem decode_four_char (b0 b1 b2 b3 : Nat) (rest : List Nat)
    (h0a : 0xF0 ≤ b0) (h0b : b0 ≤ 0xF4) (hb1 : b1 < 256) (hb2 : b2 < 256)
    (hb3 : b3 < 256) :
    utf8decode (b0 :: b1 :: b2 :: b3 :: rest) =
      if (128 ≤ b1 ∧ b1 ≤ 191) ∧ (128 ≤ b2 ∧ b2 ≤ 191) ∧ (128 ≤ b3 ∧ b3 ≤ 191) then
        if (b0 % 8) * 262144 + (b1 % 64) * 4096 + (b2 % 64) * 64 + b3 % 64 < 65536 ∨
           (b0 % 8) * 262144 + (b1 % 64) * 4096 + (b2 % 64) * 64 + b3 % 64 > 0x10FFFF then
          ⟨0, 1, .Invalid⟩
        else ⟨(b0 % 8) * 262144 + (b1 % 64) * 4096 + (b2 % 64) * 64 + b3 % 64, 4, .Ok⟩
      else ⟨0, 1, .Invalid⟩ := by
  simp only [utf8decode, List.length_cons, List.getD_eq_getElem?_getD,
    List.getElem?_cons_zero, List.getElem?_cons_succ, Option.getD_some,
    info_of_four b0 h0a h0b, and_C0_iff b1 hb1, and_C0_iff b2 hb2,
    and_C0_iff b3 hb3, and_7, and_63, shiftL_18, shiftL_12, shiftL_6]
  rw [lor_add_262144 (b0 % 8 * 262144) (b1 % 64 * 4096) (by omega) (by omega),
      lor_add_4096 (b0 % 8 * 262144 + b1 % 64 * 4096) (b2 % 64 * 64) (by omega)
        (by omega),
      lor_add_64 (b0 % 8 * 262144 + b1 % 64 * 4096 + b2 % 64 * 64) (b3 % 64)
        (by omega) (by omega)]
  split_ifs <;> first | rfl | (exfalso; first | assumption | omega)

/-- Claim C4 (confirmed): for every Unicode scalar `cp`
(U+0000-U+D7FF or U+E000-U+10FFFF), `encode(cp, buf, 4)` returns `Ok` with a
width in 1..4 and `decode(buf, width)` returns `Ok(cp, width)`; conversely,
whenever the decoder classifies a byte sequence as `Ok(cp, w)`, re-encoding
`cp` reproduces exactly the original `w` bytes. -/
theorem C4_utf8_round_trip :
    (∀ cp : Nat, cp < 0xD800 ∨ (0xE000 ≤ cp ∧ cp ≤ 0x10FFFF) →
      (utf8encode cp 4).1.status = .Ok ∧
      1 ≤ (utf8encode cp 4).1.width ∧ (utf8encode cp 4).1.width ≤ 4 ∧
      (utf8encode cp 4).2.length = (utf8encode cp 4).1.width ∧
      utf8decode (utf8encode cp 4).2 = ⟨cp, (utf8encode cp 4).1.width, .Ok⟩) ∧
    (∀ bs : List Nat, (∀ b ∈ bs, b < 256) → ∀ cp w : Nat,
      utf8decode bs = ⟨cp, w, .Ok⟩ →
      (utf8encode cp 4).1.status = .Ok ∧ (utf8encode cp 4).1.width = w ∧
      (utf8encode cp 4).2 = bs.take w) := by
  constructor
  · intro cp hcp
    by_cases hA : cp ≤ 0x7F
    · rw [encode_ascii cp hA]
      refine ⟨rfl, by norm_num, by norm_num, rfl, ?_⟩
      exact decode_ascii cp hA []
    · by_cases hB : cp ≤ 0x7FF
      · rw [encode_two cp (by omega) hB]
        refine ⟨rfl, by norm_num, by norm_num, rfl, ?_⟩
        have hd := decode_two_char (192 + cp / 64) (128 + cp % 64) []
          (by omega) (by omega) (by omega)
        rw [if_pos (show 128 ≤ 128 + cp % 64 ∧ 128 + cp % 64 ≤ 191 by omega)] at hd
        rw [show (192 + cp / 64) % 32 * 64 + (128 + cp % 64) % 64 = cp by omega] at hd
        rw [if_neg (show ¬cp < 128 by omega)] at hd
        exact hd
      · by_cases hC : cp ≤ 0xFFFF
        · have hs : check_surrogates cp = true := by
            rw [check_surrogates_iff cp (by omega)]
            omega
          rw [encode_three cp (by omega) hC hs]
          refine ⟨rfl, by norm_num, by norm_num, rfl, ?_⟩
          have hd := decode_three_char (224 + cp / 4096) (128 + cp / 64 % 64)
            (128 + cp % 64) [] (by omega) (by omega) (by omega) (by omega)
          rw [if_pos (show (128 ≤ 128 + cp / 64 % 64 ∧ 128 + cp / 64 % 64 ≤ 191) ∧
              (128 ≤ 128 + cp % 64 ∧ 128 + cp % 64 ≤ 191) by omega)] at hd
          rw [show (224 + cp / 4096) % 16 * 4096 + (128 + cp / 64 % 64) % 64 * 64 +
              (128 + cp % 64) % 64 = cp by omega] at hd
          rw [if_neg (show ¬cp < 2048 by omega), if_neg (by simp [hs])] at hd
          exact hd
        · have h1 : 0x10000 ≤ cp := by omega
          have h2 : cp ≤ 0x10FFFF := by omega
          rw [encode_four cp h1 h2]
          refine ⟨rfl, by norm_num, by norm_num, rfl, ?_⟩
          have hd := decode_four_char (240 + cp / 262144) (128 + cp / 4096 % 64)
            (128 + cp / 64 % 64) (128 + cp % 64) [] (by omega) (by omega)
            (by omega) (by omega) (by omega)
          rw [if_pos (show (128 ≤ 128 + cp / 4096 % 64 ∧ 128 + cp / 4096 % 64 ≤ 191) ∧
              (128 ≤ 128 + cp / 64 % 64 ∧ 128 + cp / 64 % 64 ≤ 191) ∧
              (128 ≤ 128 + cp % 64 ∧ 128 + cp % 64 ≤ 191) by omega)] at hd
          rw [show (240 + cp / 262144) % 8 * 262144 + (128 + cp / 4096 % 64) % 64 * 4096 +
              (128 + cp / 64 % 64) % 64 * 64 + (128 + cp % 64) % 64 = cp by omega] at hd
          rw [if_neg (show ¬(cp < 65536 ∨ cp > 0x10FFFF) by omega)] at hd
          exact hd
  · intro bs hb cp w hdec
    match bs, hb with
    | [], hb => simp [utf8decode] at hdec
    | b0 :: rest, hb =>
      have hb0 : b0 < 256 := hb b0 (by simp)
      by_cases hA : b0 ≤ 127
      · rw [decode_ascii b0 hA rest] at hdec
        simp only [DecodeResult.mk.injEq, and_true] at hdec
        obtain ⟨e1, e2⟩ := hdec
        subst e1
        subst e2
        rw [encode_ascii b0 hA]
        exact ⟨rfl, rfl, rfl⟩
      · by_cases hB : b0 ≤ 193
        · have hinfo : make_utf8_info b0 = ⟨0, 0, 0, 0⟩ := by
            by_cases hbb : b0 ≤ 191
            · exact info_of_cont b0 (by omega) hbb
            · exact info_of_overlong b0 (by omega) (by omega)
          simp [utf8decode, hinfo] at hdec
        · by_cases hC : b0 ≤ 223
          · match rest, hb with
            | [], hb =>
              simp [utf8decode, info_of_two b0 (by omega) (by omega)] at hdec
            | b1 :: rest2, hb =>
              have hb1 : b1 < 256 := hb b1 (by simp)
              rw [decode_two_char b0 b1 rest2 (by omega) hC hb1] at hdec
              split_ifs at hdec with h1 h2 <;> simp at hdec
              obtain ⟨e1, e2⟩ := hdec
              subst e1
              subst e2
              rw [encode_two (b0 % 32 * 64 + b1 % 64) (by omega) (by omega)]
              refine ⟨rfl, rfl, ?_⟩
              simp only [List.take_succ_cons, List.take_zero, List.cons.injEq]
              refine ⟨by omega, by omega, trivial⟩
          · by_cases hD : b0 ≤ 239
            · match rest, hb with
              | [], hb =>
                simp [utf8decode, info_of_three b0 (by omega) (by omega)] at hdec
              | [b1], hb =>
                simp [utf8decode, info_of_three b0 (by omega) (by omega)] at hdec
              | b1 :: b2 :: rest2, hb =>
                have hb1 : b1 < 256 := hb b1 (by simp)
                have hb2 : b2 < 256 := hb b2 (by simp)
                rw [decode_three_char b0 b1 b2 rest2 (by omega) hD hb1 hb2] at hdec
                split_ifs at hdec with h1 h2 h3 <;> simp at hdec
                obtain ⟨e1, e2⟩ := hdec
                subst e1
                subst e2
                rw [encode_three (b0 % 16 * 4096 + b1 % 64 * 64 + b2 % 64)
                  (by omega) (by omega) (by simpa using h3)]
                refine ⟨rfl, rfl, ?_⟩
                simp only [List.take_succ_cons, List.take_zero, List.cons.injEq]
                refine ⟨by omega, by omega, by omega, trivial⟩
            · by_cases hE : b0 ≤ 244
              · match rest, hb with
                | [], hb =>
                  simp [utf8decode, info_of_four b0 (by omega) (by omega)] at hdec
                | [b1], hb =>
                  simp [utf8decode, info_of_four b0 (by omega) (by omega)] at hdec
                | [b1, b2], hb =>
                  simp [utf8decode, info_of_four b0 (by omega) (by omega)] at hdec
                | b1 :: b2 :: b3 :: rest2, hb =>
                  have hb1 : b1 < 256 := hb b1 (by simp)
                  have hb2 : b2 < 256 := hb b2 (by simp)
                  have hb3 : b3 < 256 := hb b3 (by simp)
                  rw [decode_four_char b0 b1 b2 b3 rest2 (by omega) hE hb1 hb2 hb3] at hdec
                  split_ifs at hdec with h1 h2 <;> simp at hdec
                  obtain ⟨e1, e2⟩ := hdec
                  subst e1
                  subst e2
                  rw [encode_four (b0 % 8 * 262144 + b1 % 64 * 4096 + b2 % 64 * 64 + b3 % 64)
                    (by omega) (by omega)]
                  refine ⟨rfl, rfl, ?_⟩
                  simp only [List.take_succ_cons, List.take_zero, List.cons.injEq]
                  refine ⟨by omega, by omega, by omega, by omega, trivial⟩
              · simp [utf8decode, info_of_high b0 (by omega)] at hdec

/-- Witness for C4 at concrete inputs: round trip of U+10348, and
re-encoding of the decoded bytes `C3 A9`. -/
theorem C4_utf8_round_trip_witness :
    utf8decode (utf8encode 0x10348 4).2 = ⟨0x10348, (utf8encode 0x10348 4).1.width, .Ok⟩ ∧
    (utf8encode 0xE9 4).2 = [0xC3, 0xA9].take 2 :=
  ⟨(C4_utf8_round_trip.1 0x10348 (by norm_num)).2.2.2.2,
   (C4_utf8_round_trip.2 [0xC3, 0xA9] (by decide) 0xE9 2 (by decide)).2.2⟩

/-- When enough bytes are already buffered (and the request fits the
buffer), `ensureData` succeeds without touching the state. -/
theorem ensureData_noRefill (s : BISState) (n : Nat)
    (h : s.bufferPos + n ≤ s.bufferEnd) (hcap : ¬n > s.bufferSize) :
    ensureData s n = (true, s) := by
  unfold ensureData
  rw [if_neg hcap, if_pos h]

/-- Claim C3 (code bug): `peekChar` is not idempotent.  On the stream
`"A\r\nB"` with buffer size 2 - the exact setting of the repository's own
`PeekCRLFStateRegression` test - after consuming `A` and the CR, the first
peek returns LF but triggers a buffer refill whose cursor reset is then
clobbered by the save/restore of `bufferPos_`; the second peek returns `-1`
and the following `getChar` also returns `-1` instead of the peeked LF
(and the remaining byte `B` is lost).  Line, column and byte counts are
restored, but the stream state is not. -/
theorem C3_peek_not_idempotent :
    c3_peek1.1 = 10 ∧ c3_peek2.1 = -1 ∧ c3_peek1.1 ≠ c3_peek2.1 ∧
    (getChar c3_peek1.2).1 = -1 ∧ (getChar c3_peek1.2).1 ≠ c3_peek1.1 ∧
    c3_peek1.2.totalBytesRead = c3_afterCR.totalBytesRead ∧
    c3_peek1.2.currentLine = c3_afterCR.currentLine ∧
    c3_peek1.2.currentColumn = c3_afterCR.currentColumn := by
  decide

/-- Claim C8 (code bug): `detectEncoding` returns without skipping the BOM
whenever fewer than four bytes were buffered, so for the three-byte input
`EF BB BF` the BOM is not skipped: the first `getChar` returns U+FEFF and
the BOM bytes are counted by `getTotalBytesRead`.  With a fourth byte
present the BOM is skipped, uncounted, and line/column stay 1, as the
claim states. -/
theorem C8_bom_skip :
    c8_bom3.bomSize = 0 ∧ c8_bom3.bufferPos = 0 ∧
    (getChar c8_bom3).1 = 0xFEFF ∧
    getTotalBytesRead (getChar c8_bom3).2 = 3 ∧
    c8_bom4.bomSize = 3 ∧ c8_bom4.bufferPos = 3 ∧
    getTotalBytesRead c8_bom4 = 0 ∧
    c8_bom4.currentLine = 1 ∧ c8_bom4.currentColumn = 1 ∧
    (getChar c8_bom4).1 = 0x41 := by
  decide

/-- Claim C2 (code bug): with `NormalizeLineEndings` cleared, tokenizing
`"line1\r\nline2"` does NOT preserve the CRLF pair.
`BufferedInputStream::advance` consumes the LF together with the CR, and
its `consumed++` even runs one extra loop iteration that swallows the
following `l`, so the emitted Text token holds `"line1\rine2"`.  At the
stream layer, `getChar` on the CR returns 13 but consumes three bytes, and
the next `getChar` returns `i`, not the LF. -/
theorem C2_crlf_not_preserved :
    (scanText c2_tok).2.2 = true ∧
    ((scanText c2_tok).2.1.map (fun t => t.type)) = some .Text ∧
    (scanText c2_tok).1.textArena =
      [0x6C, 0x69, 0x6E, 0x65, 0x31, 0x0D, 0x69, 0x6E, 0x65, 0x32] ∧
    (scanText c2_tok).1.textArena ≠ c2_input ∧
    (getChar c2_after5).1 = 13 ∧
    (getChar c2_after5).2.totalBytesRead = c2_after5.totalBytesRead + 3 ∧
    (getChar (getChar c2_after5).2).1 = 0x69 := by
  decide

/-- Claim C10 (confirmed): when the next byte of the stream is NUL,
`getChar` consumes exactly one byte and returns the error sentinel `-2`,
which is neither the scalar 0 nor the end-of-input value `-1`. -/
theorem C10_nul_byte (s : BISState) (hwf : WfBIS s)
    (hpos : s.bufferPos < s.bufferEnd)
    (h0 : s.buffer.getD s.bufferPos 0 = 0) :
    (getChar s).1 = -2 ∧ (getChar s).1 ≠ -1 ∧ (getChar s).1 ≠ 0 ∧
    (getChar s).2.bufferPos = s.bufferPos + 1 ∧
    (getChar s).2.totalBytesRead = s.totalBytesRead + 1 ∧
    (getChar s).2.bufferEnd = s.bufferEnd ∧
    (getChar s).2.input = s.input := by
  obtain ⟨hpe, hes, hlen, hbuf, hinp, henc⟩ := hwf
  have hcap : ¬(1 : Nat) > s.bufferSize := by omega
  have henc2 : ¬(s.encoding ≠ .UTF8 ∧ s.encoding ≠ .UTF8_NO_BOM) := by
    rcases henc with h | h <;> simp [h]
  have hens := ensureData_noRefill s 1 (by omega) hcap
  have hfuel : 1 + (s.bufferEnd - s.bufferPos) + 1 =
      ((s.bufferEnd - s.bufferPos) + 1) + 1 := by omega
  have hadv : advanceBIS s 1 =
      { s with bufferPos := s.bufferPos + 1,
               totalBytesRead := s.totalBytesRead + 1,
               hasPendingCR := false,
               currentColumn := s.currentColumn + 1 } := by
    unfold advanceBIS
    rw [hfuel]
    simp only [advanceLoop, h0]
    rw [if_pos hpos]
    simp [LFb, CRb]
  simp only [getChar, hens, h0]
  rw [if_neg henc2]
  simp only [hadv]
  norm_num
/-- Witness for C10: a stream whose single input byte is NUL. -/
theorem C10_nul_byte_witness :
    (getChar (mkStream [0x00] 4)).1 = -2 ∧
    (getChar (mkStream [0x00] 4)).2.totalBytesRead =
      (mkStream [0x00] 4).totalBytesRead + 1 :=
  ⟨(C10_nul_byte (mkStream [0x00] 4) (by decide) (by decide) (by decide)).1,
   (C10_nul_byte (mkStream [0x00] 4) (by decide) (by decide) (by decide)).2.2.2.2.1⟩

/-- Setting the `Ended` bit makes it test as set. -/
theorem or_two_and_two (x : Nat) : (x ||| 2) &&& 2 = 2 := by
  have h := Nat.and_two_pow (x ||| 2) 1
  norm_num at h
  have h3 : Nat.testBit 2 1 = true := by decide
  rw [h, h3, Bool.or_true]
  rfl

/-- Claim C6 (confirmed): `emitError` returns true, appends exactly one
`ErrorRecord` (carrying the given code and severity, the pending-start
position when one was marked and otherwise the current cursor, and the same
message pointer as the token), fills the `Error` token for the caller with
that position, sets `Ended` iff the severity is `Fatal` (a non-Fatal
severity leaves the flags untouched), and changes nothing else: stack,
arenas, state, stream, options and limits are all preserved. -/
theorem C6_emitError_spec (s : TokState) (code : TokenizerErrorCode)
    (sev : ErrorSeverity) (msg : Option String) (msgLen : Nat)
    (r : TokState) (tok : XMLToken) (ok : Bool)
    (h : emitError s code sev msg msgLen = (r, tok, ok)) :
    ok = true ∧
    r.errors.length = s.errors.length + 1 ∧
    r.errors.take s.errors.length = s.errors ∧
    r.errors.getLast?.map (fun rc => (rc.code, rc.sev, rc.wherePos, rc.msgLen)) =
      some (code, sev,
        (if s.pendingStartValid then s.pendingStart else currentPosition s),
        tok.length) ∧
    r.errors.getLast?.map (fun rc => rc.msgPtr) = tok.dataPtr.map id ∧
    tok.type = .Error ∧
    tok.byteOffset =
      (if s.pendingStartValid then s.pendingStart else currentPosition s).byteOffset ∧
    tok.line = (if s.pendingStartValid then s.pendingStart else currentPosition s).line ∧
    tok.column = (if s.pendingStartValid then s.pendingStart else currentPosition s).column ∧
    (msg = none → tok.length = 15) ∧
    (msg ≠ none → tok.length = msgLen) ∧
    (r.testFlag FlagEnded = true ↔ (s.testFlag FlagEnded = true ∨ sev = .Fatal)) ∧
    (sev ≠ .Fatal → r.flagsBits = s.flagsBits) ∧
    r.tagStack = s.tagStack ∧ r.textArena = s.textArena ∧ r.state = s.state ∧
    r.ins = s.ins ∧ r.freelist = s.freelist ∧ r.opts = s.opts ∧ r.lims = s.lims ∧
    r.pendingStartValid = false := by
  have hr : r = (emitError s code sev msg msgLen).1 := by rw [h]
  have htok : tok = (emitError s code sev msg msgLen).2.1 := by rw [h]
  have hok : ok = (emitError s code sev msg msgLen).2.2 := by rw [h]
  subst hr
  subst htok
  subst hok
  rcases msg with _ | m <;> by_cases hf : sev = .Fatal <;>
    simp [emitError, internError, TokState.setFlag, TokState.testFlag, hf,
      List.take_left, List.getLast?_concat, or_two_and_two, FlagEnded]

/-- Witness for C6 at a concrete call (Fatal severity, explicit message). -/
theorem C6_emitError_spec_witness :
    (emitError c7_tok .UnexpectedEOF .Fatal (some "boom") 4).2.2 = true ∧
    (emitError c7_tok .UnexpectedEOF .Fatal (some "boom") 4).1.errors.length =
      c7_tok.errors.length + 1 :=
  ⟨(C6_emitError_spec c7_tok .UnexpectedEOF .Fatal (some "boom") 4 _ _ _ rfl).1,
   (C6_emitError_spec c7_tok .UnexpectedEOF .Fatal (some "boom") 4 _ _ _ rfl).2.1⟩

/-- Claim C9 (confirmed): the open-element stack never exceeds
`limits.max_open_depth`.  Pushing preserves the bound, and a push at (or
above) the bound pushes nothing, records a Fatal `LimitExceeded` error,
sets `Ended`, and returns false. -/
theorem C9_depth_bound (s : TokState) :
    (s.tagStack.length ≤ s.lims.maxOpenDepth →
      (pushTagFrame s).2.tagStack.length ≤ s.lims.maxOpenDepth) ∧
    (s.lims.maxOpenDepth ≤ s.tagStack.length →
      (pushTagFrame s).1 = false ∧
      (pushTagFrame s).2.tagStack = s.tagStack ∧
      (pushTagFrame s).2.testFlag FlagEnded = true ∧
      (pushTagFrame s).2.errors.length = s.errors.length + 1 ∧
      (pushTagFrame s).2.errors.getLast?.map (fun rc => (rc.code, rc.sev)) =
        some (.LimitExceeded, .Fatal)) := by
  by_cases hge : s.tagStack.length ≥ s.lims.maxOpenDepth
  · constructor
    · intro hle
      simp only [pushTagFrame]
      rw [if_pos hge]
      simp [emitError, internError, TokState.setFlag]
      exact hle
    · intro _
      simp only [pushTagFrame]
      rw [if_pos hge]
      simp [emitError, internError, TokState.setFlag, TokState.testFlag,
        or_two_and_two, FlagEnded, List.getLast?_concat]
  · constructor
    · intro _
      simp only [pushTagFrame]
      rw [if_neg hge]
      simp only [List.length_cons]
      omega
    · intro hle
      omega

/-- Witness for C9 at the depth bound: a tokenizer with `maxOpenDepth = 0`
and an empty stack. -/
theorem C9_depth_bound_witness :
    (pushTagFrame (mkTokenizer (mkStream [] 4) {} { maxOpenDepth := 0 })).1 = false ∧
    (pushTagFrame (mkTokenizer (mkStream [] 4) {} { maxOpenDepth := 0 })).2.tagStack =
      (mkTokenizer (mkStream [] 4) {} { maxOpenDepth := 0 }).tagStack :=
  ⟨((C9_depth_bound (mkTokenizer (mkStream [] 4) {} { maxOpenDepth := 0 })).2
      (by decide)).1,
   ((C9_depth_bound (mkTokenizer (mkStream [] 4) {} { maxOpenDepth := 0 })).2
      (by decide)).2.1⟩

/-- Claim C1 (code bug): the TagBuffer backing an open element is NOT a
fixed block of exactly `limits.max_per_tag_bytes` with a stable address.
`ensureCurrentTagCapacity` allocates 256 bytes first and then grows
geometrically: after a ten-byte name is written the frame's buffer is
allocation #1 of capacity 256 (not the 8 MiB `maxPerTagBytes`), and the
StartTag token points into allocation #1; appending 300 further bytes
reallocates to a fresh block (allocation #2, capacity 512), so the
emitted token's data pointer no longer refers to the frame's buffer while
the element is still open. -/
theorem C1_tag_buffer_realloc :
    (c1_app1.tagStack.head?.map fun f => f.buf.alloc) = some 1 ∧
    (c1_app1.tagStack.head?.map fun f => f.buf.cap) = some 256 ∧
    c1_app1.lims.maxPerTagBytes = 8 * 1024 * 1024 ∧
    (c1_app1.tagStack.head?.map fun f => f.buf.cap) ≠
      some c1_app1.lims.maxPerTagBytes ∧
    c1_tokTag.type = .StartTag ∧
    c1_tokTag.dataPtr = some (1, 0) ∧
    (c1_app2.tagStack.head?.map fun f => f.buf.alloc) = some 2 ∧
    (c1_app2.tagStack.head?.map fun f => f.buf.cap) = some 512 ∧
    (c1_app2.tagStack.head?.map fun f => f.buf.alloc) ≠
      c1_tokTag.dataPtr.map Prod.fst := by
  decide

/-- Claim C7, counterexample: after a second 300-byte error message is
interned, the arena vector reallocates (its capacity grows 301 to 602),
so the first Error token's message pointer no longer refers to the arena's
live allocation even though `reset()` was never called. -/
theorem C7_error_pointer_invalidated :
    errPtrValid c7_emit1.1 (c7_emit1.2.1.dataPtr.getD (0, 0)) 300 ∧
    ¬errPtrValid c7_emit2.1 (c7_emit1.2.1.dataPtr.getD (0, 0)) 300 := by
  decide

/-- Slices inside a list prefix survive appending. -/
theorem slice_prefix {α : Type} (a b : List α) (p l : Nat) (h : p + l ≤ a.length) :
    ((a ++ b).drop p).take l = (a.drop p).take l := by
  rw [List.drop_append_eq_append_drop,
      (show p - a.length = 0 by omega), List.drop_zero,
      List.take_append_eq_append_take, List.length_drop,
      (show l - (a.length - p) = 0 by omega), List.take_zero, List.append_nil]

/-- `internError` without a reallocation: the arena identity and capacity
are preserved and the data is extended in place. -/
theorem internError_no_realloc (s : TokState) (m : String)
    (hfit : s.errorArena.data.length + (m.length + 1) ≤ s.errorArena.cap) :
    (internError s (some m) m.length).2.errorArena.alloc = s.errorArena.alloc ∧
    (internError s (some m) m.length).2.errorArena.cap = s.errorArena.cap ∧
    (internError s (some m) m.length).2.errorArena.data =
      s.errorArena.data ++ (copyChars m.data m.length ++ [Char.ofNat 0]) := by
  have hlen : (copyChars m.data m.length).length = m.length := by
    simp [copyChars]
  have hre : ¬(s.errorArena.cap < s.errorArena.data.length + m.length + 1) := by
    omega
  simp [internError, hre]

/-- `internAll` under the cumulative-fit hypothesis: the arena identity and
capacity are preserved and the data only grows by appending. -/
theorem internAll_stable (msgs : List String) :
    ∀ s : TokState,
      s.errorArena.data.length + sumNeeds msgs ≤ s.errorArena.cap →
      (internAll s msgs).errorArena.alloc = s.errorArena.alloc ∧
      (internAll s msgs).errorArena.cap = s.errorArena.cap ∧
      ∃ ext, (internAll s msgs).errorArena.data = s.errorArena.data ++ ext := by
  induction msgs with
  | nil =>
    intro s _
    exact ⟨rfl, rfl, [], by simp [internAll]⟩
  | cons m rest ih =>
    intro s hfit
    have hm : s.errorArena.data.length + (m.length + 1) ≤ s.errorArena.cap := by
      have : sumNeeds (m :: rest) = (m.length + 1) + sumNeeds rest := by
        simp [sumNeeds]
      omega
    obtain ⟨ha, hc, hd⟩ := internError_no_realloc s m hm
    have hlen : (copyChars m.data m.length).length = m.length := by
      simp [copyChars]
    have hfit2 : (internError s (some m) m.length).2.errorArena.data.length +
        sumNeeds rest ≤ (internError s (some m) m.length).2.errorArena.cap := by
      rw [hd, hc]
      simp only [List.length_append, List.length_cons, List.length_nil, hlen]
      have : sumNeeds (m :: rest) = (m.length + 1) + sumNeeds rest := by
        simp [sumNeeds]
      omega
    obtain ⟨ha2, hc2, ext, hd2⟩ := ih (internError s (some m) m.length).2 hfit2
    refine ⟨?_, ?_, ?_⟩
    · rw [show internAll s (m :: rest) =
          internAll (internError s (some m) m.length).2 rest from rfl, ha2, ha]
    · rw [show internAll s (m :: rest) =
          internAll (internError s (some m) m.length).2 rest from rfl, hc2, hc]
    · refine ⟨(copyChars m.data m.length ++ [Char.ofNat 0]) ++ ext, ?_⟩
      rw [show internAll s (m :: rest) =
          internAll (internError s (some m) m.length).2 rest from rfl, hd2, hd]
      simp

/-- The `emitError` token pointer: allocation, base offset, and the interned
bytes, described on the post-call state. -/
theorem emitError_ptr (s : TokState) (code : TokenizerErrorCode)
    (sev : ErrorSeverity) (m : String) :
    (emitError s code sev (some m) m.length).2.1.dataPtr =
      some ((emitError s code sev (some m) m.length).1.errorArena.alloc,
            s.errorArena.data.length) ∧
    (emitError s code sev (some m) m.length).1.errorArena.data =
      s.errorArena.data ++ (copyChars m.data m.length ++ [Char.ofNat 0]) := by
  rcases sev <;> simp [emitError, internError, TokState.setFlag]

/-- Claim C7 amended: an Error token's message stays valid until `reset()`
PROVIDED the further interned messages fit within the arena's spare
capacity at emission time (in particular, under Phase-1 fail-fast where no
further message is interned); it is not stable regardless of further
interning, since an intern that outgrows the capacity reallocates the
arena. -/
theorem C7_error_pointer_stable_if_fits (s : TokState) (code : TokenizerErrorCode)
    (sev : ErrorSeverity) (m : String) (msgs : List String)
    (hfit : (emitError s code sev (some m) m.length).1.errorArena.data.length +
        sumNeeds msgs ≤ (emitError s code sev (some m) m.length).1.errorArena.cap) :
    errPtrValid (internAll (emitError s code sev (some m) m.length).1 msgs)
      ((emitError s code sev (some m) m.length).2.1.dataPtr.getD (0, 0))
      m.length ∧
    errPtrChars (internAll (emitError s code sev (some m) m.length).1 msgs)
      ((emitError s code sev (some m) m.length).2.1.dataPtr.getD (0, 0))
      m.length = m.data := by
  obtain ⟨hptr, hdata⟩ := emitError_ptr s code sev m
  obtain ⟨ha, hc, ext, hd⟩ :=
    internAll_stable msgs (emitError s code sev (some m) m.length).1 hfit
  have hcopy : copyChars m.data m.length = m.data := by
    simp [copyChars]
  have hblen : (emitError s code sev (some m) m.length).1.errorArena.data.length =
      s.errorArena.data.length + (m.length + 1) := by
    rw [hdata, hcopy]
    simp
  constructor
  · constructor
    · rw [hptr]
      simp only [Option.getD_some]
      rw [ha]
    · rw [hptr]
      simp only [Option.getD_some]
      rw [hd]
      simp only [List.length_append, hblen]
      omega
  · unfold errPtrChars
    rw [hptr]
    simp only [Option.getD_some]
    rw [hd, slice_prefix _ _ _ _ (by rw [hblen]; omega), hdata, hcopy,
        List.drop_left]
    exact List.take_left' rfl

/-- Witness for the amended C7: a short message followed by two further
interned messages that fit in the 256-byte arena capacity. -/
theorem C7_stable_witness :
    errPtrValid
      (internAll (emitError c7_tok .UnexpectedEOF .Fatal (some "ab") "ab".length).1
        ["cd", "ef"])
      ((emitError c7_tok .UnexpectedEOF .Fatal (some "ab") "ab".length).2.1.dataPtr.getD
        (0, 0)) "ab".length :=
  (C7_error_pointer_stable_if_fits c7_tok .UnexpectedEOF .Fatal "ab" ["cd", "ef"]
    (by decide)).1


/-- Element `i` of the unread window is the buffer byte at `bufferPos + i`. -/
theorem window_getD (s : BISState) (i : Nat)
    (hi : i < s.bufferEnd - s.bufferPos) :
    (window s).getD i 0 = s.buffer.getD (s.bufferPos + i) 0 := by
  unfold window
  rw [List.getD_eq_getElem?_getD, List.getD_eq_getElem?_getD,
      List.getElem?_take_of_lt hi, List.getElem?_drop]

/-- The unread window has exactly `bufferEnd - bufferPos` bytes. -/
theorem window_length (s : BISState) (hes : s.bufferEnd ≤ s.bufferSize)
    (hlen : s.buffer.length = s.bufferSize) :
    (window s).length = s.bufferEnd - s.bufferPos := by
  unfold window
  rw [List.length_take, List.length_drop, hlen]
  omega

/-- The window is a slice of the buffer. -/
theorem window_subset (s : BISState) : window s ⊆ s.buffer := by
  unfold window
  exact (List.take_subset _ _).trans (List.drop_subset _ _)

/-- A two-byte starter with no continuation byte available decodes as
`NeedMore`. -/
theorem decode_two_short (b0 : Nat) (h0a : 0xC2 ≤ b0) (h0b : b0 ≤ 0xDF) :
    utf8decode [b0] = ⟨0, 2, .NeedMore⟩ := by
  simp only [utf8decode, List.length_cons, List.length_nil,
    List.getD_eq_getElem?_getD, List.getElem?_cons_zero, Option.getD_some,
    info_of_two b0 h0a h0b]
  norm_num

/-- A three-byte starter with no continuation byte available decodes as
`NeedMore`. -/
theorem decode_three_short1 (b0 : Nat) (h0a : 0xE0 ≤ b0) (h0b : b0 ≤ 0xEF) :
    utf8decode [b0] = ⟨0, 3, .NeedMore⟩ := by
  simp only [utf8decode, List.length_cons, List.length_nil,
    List.getD_eq_getElem?_getD, List.getElem?_cons_zero, Option.getD_some,
    info_of_three b0 h0a h0b]
  norm_num

/-- A three-byte starter with one continuation byte available decodes as
`NeedMore`. -/
theorem decode_three_short2 (b0 b1 : Nat) (h0a : 0xE0 ≤ b0) (h0b : b0 ≤ 0xEF) :
    utf8decode [b0, b1] = ⟨0, 3, .NeedMore⟩ := by
  simp only [utf8decode, List.length_cons, List.length_nil,
    List.getD_eq_getElem?_getD, List.getElem?_cons_zero, Option.getD_some,
    info_of_three b0 h0a h0b]
  norm_num

/-- A four-byte starter with no continuation byte available decodes as
`NeedMore`. -/
theorem decode_four_short1 (b0 : Nat) (h0a : 0xF0 ≤ b0) (h0b : b0 ≤ 0xF4) :
    utf8decode [b0] = ⟨0, 4, .NeedMore⟩ := by
  simp only [utf8decode, List.length_cons, List.length_nil,
    List.getD_eq_getElem?_getD, List.getElem?_cons_zero, Option.getD_some,
    info_of_four b0 h0a h0b]
  norm_num

/-- A four-byte starter with one continuation byte available decodes as
`NeedMore`. -/
theorem decode_four_short2 (b0 b1 : Nat) (h0a : 0xF0 ≤ b0) (h0b : b0 ≤ 0xF4) :
    utf8decode [b0, b1] = ⟨0, 4, .NeedMore⟩ := by
  simp only [utf8decode, List.length_cons, List.length_nil,
    List.getD_eq_getElem?_getD, List.getElem?_cons_zero, Option.getD_some,
    info_of_four b0 h0a h0b]
  norm_num

/-- A four-byte starter with two continuation bytes available decodes as
`NeedMore`. -/
theorem decode_four_short3 (b0 b1 b2 : Nat) (h0a : 0xF0 ≤ b0) (h0b : b0 ≤ 0xF4) :
    utf8decode [b0, b1, b2] = ⟨0, 4, .NeedMore⟩ := by
  simp only [utf8decode, List.length_cons, List.length_nil,
    List.getD_eq_getElem?_getD, List.getElem?_cons_zero, Option.getD_some,
    info_of_four b0 h0a h0b]
  norm_num

/-- Claim C5 (corrected), amended version: whenever the unread bytes of a
well-formed stream form an invalid UTF-8 sequence - invalid starter, bad
continuation byte, overlong encoding, surrogate, or out-of-range scalar,
i.e. whenever `UTF8Handler::decode` classifies the window as `Invalid` -
`getChar` returns the error sentinel `-2`, which is NOT the end-of-input
value `-1`: mid-stream invalid UTF-8 is distinguishable from end-of-input
at the buffered-stream layer. -/
theorem C5_invalid_utf8_sentinel (s : BISState) (hwf : WfBIS s)
    (hinv : (utf8decode (window s)).status = .Invalid) :
    (getChar s).1 = -2 ∧ (getChar s).1 ≠ -1 := by
  suffices h : (getChar s).1 = -2 by
    refine ⟨h, ?_⟩
    rw [h]
    decide
  obtain ⟨hpe, hes, hlen, hbuf, hinp, henc⟩ := hwf
  have henc2 : ¬(s.encoding ≠ .UTF8 ∧ s.encoding ≠ .UTF8_NO_BOM) := by
    rcases henc with h | h <;> simp [h]
  have hsub := window_subset s
  have hwlen0 := window_length s hes hlen
  rcases hw : window s with _ | ⟨b0, rest⟩
  · exfalso
    rw [hw] at hinv
    simp [utf8decode] at hinv
  rw [hw] at hwlen0 hsub
  simp only [List.length_cons] at hwlen0
  have hpos : s.bufferPos < s.bufferEnd := by omega
  have hb0 : s.buffer.getD s.bufferPos 0 = b0 := by
    have h0 := window_getD s 0 (by omega)
    rw [hw] at h0
    simpa using h0.symm
  have hb0lt : b0 < 256 := hbuf b0 (hsub (List.mem_cons_self b0 rest))
  have hcap : ¬(1 : Nat) > s.bufferSize := by omega
  have hens := ensureData_noRefill s 1 (by omega) hcap
  simp only [getChar, hens]
  rw [if_neg henc2, hb0]
  by_cases hA : b0 < 0x80
  · exfalso
    rw [hw, decode_ascii b0 (by omega) rest] at hinv
    simp at hinv
  rw [if_neg hA]
  by_cases h2 : b0 &&& 224 = 192
  · rw [if_pos h2]
    have hr2 := (and_E0_iff b0 hb0lt).mp h2
    by_cases hover : b0 ≤ 0xC1
    · -- overlong starter C0/C1: whatever the refill brings, cp < 0x80
      rcases he2 : ensureData s 2 with ⟨ok, s2⟩
      cases ok
      · simp only [he2]
      · simp only [he2]
        have hr1 : List.range' 1 (2 - 1) = [1] := rfl
        rw [hr1]
        simp only [contLoop]
        by_cases hc : s2.buffer.getD (s2.bufferPos + 1) 0 &&& 192 = 128
        · rw [if_neg (not_not_intro hc)]
          have hcpeq : (b0 &&& 31) <<< 6 ||| (s2.buffer.getD (s2.bufferPos + 1) 0 &&& 63) =
              b0 % 32 * 64 + s2.buffer.getD (s2.bufferPos + 1) 0 % 64 := by
            rw [and_31, and_63, shiftL_6,
                lor_add_64 (b0 % 32 * 64) (s2.buffer.getD (s2.bufferPos + 1) 0 % 64)
                  (by omega) (by omega)]
          simp only [hcpeq]
          have c1 : ¬(b0 % 32 * 64 + s2.buffer.getD (s2.bufferPos + 1) 0 % 64 > 0x10FFFF ∨
              (0xD800 ≤ b0 % 32 * 64 + s2.buffer.getD (s2.bufferPos + 1) 0 % 64 ∧
               b0 % 32 * 64 + s2.buffer.getD (s2.bufferPos + 1) 0 % 64 ≤ 0xDFFF)) := by
            omega
          rw [if_neg c1, if_pos (Or.inl ⟨trivial, by omega⟩)]
        · rw [if_pos hc]
    · -- genuine two-byte starter C2-DF
      rcases rest with _ | ⟨b1, rest2⟩
      · exfalso
        rw [hw, decode_two_short b0 (by omega) (by omega)] at hinv
        simp at hinv
      simp only [List.length_cons] at hwlen0
      have hb1v : s.buffer.getD (s.bufferPos + 1) 0 = b1 := by
        have h1 := window_getD s 1 (by omega)
        rw [hw] at h1
        simpa using h1.symm
      have hb1lt : b1 < 256 := hbuf b1 (hsub (by simp))
      rw [hw, decode_two_char b0 b1 rest2 (by omega) (by omega) hb1lt] at hinv
      have hens2 := ensureData_noRefill s 2 (by omega) (by omega)
      simp only [hens2]
      have hr1 : List.range' 1 (2 - 1) = [1] := rfl
      rw [hr1]
      simp only [contLoop, hb1v]
      by_cases hc : b1 &&& 192 = 128
      · rw [if_neg (not_not_intro hc)]
        have hcb := (and_C0_iff b1 hb1lt).mp hc
        rw [if_pos hcb] at hinv
        have hcpeq : (b0 &&& 31) <<< 6 ||| (b1 &&& 63) = b0 % 32 * 64 + b1 % 64 := by
          rw [and_31, and_63, shiftL_6,
              lor_add_64 (b0 % 32 * 64) (b1 % 64) (by omega) (by omega)]
        simp only [hcpeq]
        by_cases hlt : b0 % 32 * 64 + b1 % 64 < 128
        · have c1 : ¬(b0 % 32 * 64 + b1 % 64 > 0x10FFFF ∨
              (0xD800 ≤ b0 % 32 * 64 + b1 % 64 ∧ b0 % 32 * 64 + b1 % 64 ≤ 0xDFFF)) := by
            omega
          rw [if_neg c1, if_pos (Or.inl ⟨trivial, hlt⟩)]
        · exfalso
          rw [if_neg hlt] at hinv
          simp at hinv
      · rw [if_pos hc]
  rw [if_neg h2]
  by_cases h3 : b0 &&& 240 = 224
  · rw [if_pos h3]
    have hr3 := (and_F0_iff b0 hb0lt).mp h3
    rcases rest with _ | ⟨b1, rest2⟩
    · exfalso
      rw [hw, decode_three_short1 b0 hr3.1 hr3.2] at hinv
      simp at hinv
    rcases rest2 with _ | ⟨b2, rest3⟩
    · exfalso
      rw [hw, decode_three_short2 b0 b1 hr3.1 hr3.2] at hinv
      simp at hinv
    simp only [List.length_cons] at hwlen0
    have hb1v : s.buffer.getD (s.bufferPos + 1) 0 = b1 := by
      have h1 := window_getD s 1 (by omega)
      rw [hw] at h1
      simpa using h1.symm
    have hb2v : s.buffer.getD (s.bufferPos + 2) 0 = b2 := by
      have h1 := window_getD s 2 (by omega)
      rw [hw] at h1
      simpa using h1.symm
    have hb1lt : b1 < 256 := hbuf b1 (hsub (by simp))
    have hb2lt : b2 < 256 := hbuf b2 (hsub (by simp))
    rw [hw, decode_three_char b0 b1 b2 rest3 hr3.1 hr3.2 hb1lt hb2lt] at hinv
    have hens3 := ensureData_noRefill s 3 (by omega) (by omega)
    simp only [hens3]
    have hr1 : List.range' 1 (3 - 1) = [1, 2] := rfl
    rw [hr1]
    simp only [contLoop, hb1v, hb2v]
    by_cases hc1 : b1 &&& 192 = 128
    · rw [if_neg (not_not_intro hc1)]
      by_cases hc2 : b2 &&& 192 = 128
      · rw [if_neg (not_not_intro hc2)]
        have hcb1 := (and_C0_iff b1 hb1lt).mp hc1
        have hcb2 := (and_C0_iff b2 hb2lt).mp hc2
        rw [if_pos ⟨hcb1, hcb2⟩] at hinv
        have hcpeq : ((b0 &&& 15) <<< 6 ||| (b1 &&& 63)) <<< 6 ||| (b2 &&& 63) =
            b0 % 16 * 4096 + b1 % 64 * 64 + b2 % 64 := by
          simp only [and_15, and_63, shiftL_6]
          rw [lor_add_64 (b0 % 16 * 64) (b1 % 64) (by omega) (by omega),
              lor_add_64 ((b0 % 16 * 64 + b1 % 64) * 64) (b2 % 64) (by omega) (by omega)]
          ring
        simp only [hcpeq]
        by_cases hvlt : b0 % 16 * 4096 + b1 % 64 * 64 + b2 % 64 < 2048
        · have c1 : ¬(b0 % 16 * 4096 + b1 % 64 * 64 + b2 % 64 > 0x10FFFF ∨
              (0xD800 ≤ b0 % 16 * 4096 + b1 % 64 * 64 + b2 % 64 ∧
               b0 % 16 * 4096 + b1 % 64 * 64 + b2 % 64 ≤ 0xDFFF)) := by
            omega
          rw [if_neg c1, if_pos (Or.inr (Or.inl ⟨trivial, hvlt⟩))]
        · rw [if_neg hvlt] at hinv
          by_cases hsur : check_surrogates (b0 % 16 * 4096 + b1 % 64 * 64 + b2 % 64) = true
          · exfalso
            rw [if_neg (by simp [hsur])] at hinv
            simp at hinv
          · have hvlt2 : b0 % 16 * 4096 + b1 % 64 * 64 + b2 % 64 < 0x200000 := by omega
            have hsurr : 0xD800 ≤ b0 % 16 * 4096 + b1 % 64 * 64 + b2 % 64 ∧
                b0 % 16 * 4096 + b1 % 64 * 64 + b2 % 64 < 0xE000 := by
              by_contra hcon
              exact hsur ((check_surrogates_iff _ hvlt2).mpr hcon)
            rw [if_pos (Or.inr ⟨hsurr.1, by omega⟩)]
      · rw [if_pos hc2]
    · rw [if_pos hc1]
  rw [if_neg h3]
  by_cases h4 : b0 &&& 248 = 240
  · rw [if_pos h4]
    have hr4 := (and_F8_iff b0 hb0lt).mp h4
    by_cases hq : b0 ≤ 0xF4
    · rcases rest with _ | ⟨b1, rest2⟩
      · exfalso
        rw [hw, decode_four_short1 b0 (by omega) hq] at hinv
        simp at hinv
      rcases rest2 with _ | ⟨b2, rest3⟩
      · exfalso
        rw [hw, decode_four_short2 b0 b1 (by omega) hq] at hinv
        simp at hinv
      rcases rest3 with _ | ⟨b3, rest4⟩
      · exfalso
        rw [hw, decode_four_short3 b0 b1 b2 (by omega) hq] at hinv
        simp at hinv
      simp only [List.length_cons] at hwlen0
      have hb1v : s.buffer.getD (s.bufferPos + 1) 0 = b1 := by
        have h1 := window_getD s 1 (by omega)
        rw [hw] at h1
        simpa using h1.symm
      have hb2v : s.buffer.getD (s.bufferPos + 2) 0 = b2 := by
        have h1 := window_getD s 2 (by omega)
        rw [hw] at h1
        simpa using h1.symm
      have hb3v : s.buffer.getD (s.bufferPos + 3) 0 = b3 := by
        have h1 := window_getD s 3 (by omega)
        rw [hw] at h1
        simpa using h1.symm
      have hb1lt : b1 < 256 := hbuf b1 (hsub (by simp))
      have hb2lt : b2 < 256 := hbuf b2 (hsub (by simp))
      have hb3lt : b3 < 256 := hbuf b3 (hsub (by simp))
      rw [hw, decode_four_char b0 b1 b2 b3 rest4 (by omega) hq hb1lt hb2lt hb3lt] at hinv
      have hens4 := ensureData_noRefill s 4 (by omega) (by omega)
      simp only [hens4]
      have hr1 : List.range' 1 (4 - 1) = [1, 2, 3] := rfl
      rw [hr1]
      simp only [contLoop, hb1v, hb2v, hb3v]
      by_cases hc1 : b1 &&& 192 = 128
      · rw [if_neg (not_not_intro hc1)]
        by_cases hc2 : b2 &&& 192 = 128
        · rw [if_neg (not_not_intro hc2)]
          by_cases hc3 : b3 &&& 192 = 128
          · rw [if_neg (not_not_intro hc3)]
            have hcb1 := (and_C0_iff b1 hb1lt).mp hc1
            have hcb2 := (and_C0_iff b2 hb2lt).mp hc2
            have hcb3 := (and_C0_iff b3 hb3lt).mp hc3
            rw [if_pos ⟨hcb1, hcb2, hcb3⟩] at hinv
            have hcpeq : (((b0 &&& 7) <<< 6 ||| (b1 &&& 63)) <<< 6 ||| (b2 &&& 63)) <<< 6
                  ||| (b3 &&& 63) =
                b0 % 8 * 262144 + b1 % 64 * 4096 + b2 % 64 * 64 + b3 % 64 := by
              simp only [and_7, and_63, shiftL_6]
              rw [lor_add_64 (b0 % 8 * 64) (b1 % 64) (by omega) (by omega),
                  lor_add_64 ((b0 % 8 * 64 + b1 % 64) * 64) (b2 % 64) (by omega) (by omega),
                  lor_add_64 (((b0 % 8 * 64 + b1 % 64) * 64 + b2 % 64) * 64) (b3 % 64)
                    (by omega) (by omega)]
              ring
            simp only [hcpeq]
            by_cases hvr : b0 % 8 * 262144 + b1 % 64 * 4096 + b2 % 64 * 64 + b3 % 64 < 65536 ∨
                b0 % 8 * 262144 + b1 % 64 * 4096 + b2 % 64 * 64 + b3 % 64 > 0x10FFFF
            · rcases hvr with hlo | hhi
              · by_cases hs2 : 0xD800 ≤ b0 % 8 * 262144 + b1 % 64 * 4096 + b2 % 64 * 64 + b3 % 64 ∧
                    b0 % 8 * 262144 + b1 % 64 * 4096 + b2 % 64 * 64 + b3 % 64 ≤ 0xDFFF
                · rw [if_pos (Or.inr hs2)]
                · have c1 : ¬(b0 % 8 * 262144 + b1 % 64 * 4096 + b2 % 64 * 64 + b3 % 64 > 0x10FFFF ∨
                      (0xD800 ≤ b0 % 8 * 262144 + b1 % 64 * 4096 + b2 % 64 * 64 + b3 % 64 ∧
                       b0 % 8 * 262144 + b1 % 64 * 4096 + b2 % 64 * 64 + b3 % 64 ≤ 0xDFFF)) := by
                    refine fun h => h.elim (by omega) hs2
                  rw [if_neg c1, if_pos (Or.inr (Or.inr ⟨trivial, hlo⟩))]
              · rw [if_pos (Or.inl hhi)]
            · exfalso
              rw [if_neg hvr] at hinv
              simp at hinv
          · rw [if_pos hc3]
        · rw [if_pos hc2]
      · rw [if_pos hc1]
    · -- starters F5-F7: any continuation bytes yield cp ≥ 5 * 2^18 > 0x10FFFF
      rcases he4 : ensureData s 4 with ⟨ok, s2⟩
      cases ok
      · simp only [he4]
      · simp only [he4]
        have hr1 : List.range' 1 (4 - 1) = [1, 2, 3] := rfl
        rw [hr1]
        simp only [contLoop]
        by_cases hc1 : s2.buffer.getD (s2.bufferPos + 1) 0 &&& 192 = 128
        · rw [if_neg (not_not_intro hc1)]
          by_cases hc2 : s2.buffer.getD (s2.bufferPos + 2) 0 &&& 192 = 128
          · rw [if_neg (not_not_intro hc2)]
            by_cases hc3 : s2.buffer.getD (s2.bufferPos + 3) 0 &&& 192 = 128
            · rw [if_neg (not_not_intro hc3)]
              have hcpeq : (((b0 &&& 7) <<< 6 ||| (s2.buffer.getD (s2.bufferPos + 1) 0 &&& 63)) <<< 6
                    ||| (s2.buffer.getD (s2.bufferPos + 2) 0 &&& 63)) <<< 6
                    ||| (s2.buffer.getD (s2.bufferPos + 3) 0 &&& 63) =
                  b0 % 8 * 262144 + s2.buffer.getD (s2.bufferPos + 1) 0 % 64 * 4096 +
                    s2.buffer.getD (s2.bufferPos + 2) 0 % 64 * 64 +
                    s2.buffer.getD (s2.bufferPos + 3) 0 % 64 := by
                simp only [and_7, and_63, shiftL_6]
                rw [lor_add_64 (b0 % 8 * 64) (s2.buffer.getD (s2.bufferPos + 1) 0 % 64)
                      (by omega) (by omega),
                    lor_add_64 ((b0 % 8 * 64 + s2.buffer.getD (s2.bufferPos + 1) 0 % 64) * 64)
                      (s2.buffer.getD (s2.bufferPos + 2) 0 % 64) (by omega) (by omega),
                    lor_add_64 (((b0 % 8 * 64 + s2.buffer.getD (s2.bufferPos + 1) 0 % 64) * 64 +
                        s2.buffer.getD (s2.bufferPos + 2) 0 % 64) * 64)
                      (s2.buffer.getD (s2.bufferPos + 3) 0 % 64) (by omega) (by omega)]
                ring
              simp only [hcpeq]
              rw [if_pos (Or.inl (by omega))]
            · rw [if_pos hc3]
          · rw [if_pos hc2]
        · rw [if_pos hc1]
  rw [if_neg h4]

/-- Claim C5 (corrected), counterexample to the original wording: on the
stream whose single byte is the invalid starter `0x80`, the window is
classified `Invalid` by the decoder, yet `getChar` returns `-2`, not the
claimed `-1`; the subsequent `getChar` at true end-of-input returns `-1`,
so mid-stream invalid UTF-8 is distinguishable from end-of-input. -/
theorem C5_not_minus_one :
    (utf8decode (window (mkStream [0x80] 4))).status = .Invalid ∧
    (getChar (mkStream [0x80] 4)).1 = -2 ∧
    (getChar (mkStream [0x80] 4)).1 ≠ -1 ∧
    (getChar (getChar (mkStream [0x80] 4)).2).1 = -1 := by
  decide

/-- Witness for the amended C5: a two-byte starter followed by a
non-continuation byte. -/
theorem C5_invalid_utf8_sentinel_witness :
    (getChar (mkStream [0xC3, 0x28] 8)).1 = -2 ∧
    (getChar (mkStream [0xC3, 0x28] 8)).1 ≠ -1 :=
  C5_invalid_utf8_sentinel (mkStream [0xC3, 0x28] 8) (by decide) (by decide)

end LXML